import Mathlib

/-!
Verification development for the query-planning core of a lazy dataframe
engine: the immutable IR node hierarchy (`bigframes/core/nodes.py`) and the
caching execution controller (`bigframes/session/executor.py`).

The node variants, their per-variant metrics (`variables_introduced`,
`relation_ops_created`, `joins`), the recursive aggregates
(`total_variables`, `total_relational_ops`, `total_joins`,
`planning_complexity`), the `order_ambiguous` flag, schema derivation,
session resolution, construction-time validation, the structural hash, the
`head` dispatch and the complexity-bounded factoring loop are embedded as
executable Lean definitions.

Collaborator modules that are referenced by the two source files but whose
own sources are not part of this unit (`bigframes.core.schema`,
`bigframes.core.expression`, `bigframes.core.ordering`,
`bigframes.core.tree_properties`, `bigframes.core.guid`, the selection
node used by `generate_head_plan`) are modelled from the specification and
are marked `Modelled from the spec:` in their doc comments.
-/

/-- Modelled from the spec: logical column types ("(column id, logical type)
pairs").  The concrete dtype vocabulary lives in the external
`bigframes.dtypes` module; only identity of dtypes matters here, plus the
list/element relation used by `ExplodeNode`. -/
inductive Dtype where
  | int64
  | float64
  | string
  | bool
  | listOf (elem : Dtype)
deriving DecidableEq, Repr

/-- Embeds `bigframes.dtypes.INT_DTYPE`, the dtype given to injected offset
columns and to the `RowCountNode` output column. -/
def INT_DTYPE : Dtype := Dtype.int64

/-- Modelled from the spec: one `(column id, logical type)` pair of an array
schema (`bigframes.core.schema.SchemaItem`). -/
structure SchemaItem where
  name : String
  dtype : Dtype
deriving DecidableEq, Repr

/-- Modelled from the spec: an ordered sequence of schema items
(`bigframes.core.schema.ArraySchema`), order significant. -/
abbrev ArraySchema := List SchemaItem

/-- Embeds `ArraySchema.names`: the column ids in order. -/
def ArraySchema.names (s : ArraySchema) : List String :=
  List.map SchemaItem.name s

/-- Embeds `ArraySchema.dtypes`: the column dtypes in order. -/
def ArraySchema.dtypes (s : ArraySchema) : List Dtype :=
  List.map SchemaItem.dtype s

/-- Modelled from the spec: name-to-dtype lookup (`ArraySchema.get_type`,
backed by the `_mapping` dict).  Ids of a schema are unique per the spec, so
first-match lookup is used; a missing name models the `KeyError`. -/
def ArraySchema.getType (s : ArraySchema) (nm : String) : Option Dtype :=
  Option.map SchemaItem.dtype (List.find? (fun it => it.name == nm) s)

/-- Embeds `ArraySchema.prepend` as used by `PromoteOffsetsNode.schema`. -/
def ArraySchema.prependItem (s : ArraySchema) (it : SchemaItem) : ArraySchema :=
  it :: s

/-- Embeds `ArraySchema.append` as used by `WindowOpNode.schema`. -/
def ArraySchema.appendItem (s : ArraySchema) (it : SchemaItem) : ArraySchema :=
  s ++ [it]

/-- Modelled from the spec: `ArraySchema.update_dtype`, replacing the dtype
of the named column in place. -/
def ArraySchema.updateDtype (s : ArraySchema) (nm : String) (d : Dtype) : ArraySchema :=
  List.map (fun it => if it.name == nm then SchemaItem.mk it.name d else it) s

/-- Embeds `google.cloud.bigquery.SchemaField` to the extent the two source
files use it: a named physical column. -/
structure BqField where
  name : String
  fieldType : String
deriving DecidableEq, Repr

/-- Modelled from the spec: scalar expressions
(`bigframes.core.expression`), covering the constructors the two source
files use: constants (`ex.const`), free column references (`ex.free_var`)
and operator application (`ops.lt_op.as_expr`). -/
inductive Expr where
  | const (v : Int)
  | freeVar (id : String)
  | binOp (op : String) (lhs rhs : Expr)
deriving DecidableEq, Repr

/-- Modelled from the spec: `Expression.unbound_variables`, the free column
ids referenced by an expression. -/
def Expr.unboundVariables : Expr → List String
  | Expr.const _ => []
  | Expr.freeVar id => [id]
  | Expr.binOp _ l r => l.unboundVariables ++ r.unboundVariables

/-- Modelled from the spec: `Expression.is_identity`, true exactly for a
bare column reference (used by `ProjectionNode.variables_introduced` to
ignore passthrough expressions). -/
def Expr.isIdentity : Expr → Bool
  | Expr.freeVar _ => true
  | _ => false

/-- Modelled from the spec: `Expression.output_type` over an input-type
mapping; a failed column lookup models the `TypeError`/`KeyError`.
Constants in the embedded fragment are integers and the only compound
operator used is a comparison, typed as boolean. -/
def Expr.outputType (lookup : String → Option Dtype) : Expr → Option Dtype
  | Expr.const _ => some Dtype.int64
  | Expr.freeVar id => lookup id
  | Expr.binOp _ l r =>
      match l.outputType lookup, r.outputType lookup with
      | some _, some _ => some Dtype.bool
      | _, _ => none

/-- Modelled from the spec: one sort key of an `OrderByNode`
(`bigframes.core.ordering.OrderingExpression`): a scalar expression plus
direction/null-placement flags. -/
structure OrderingExpression where
  scalarExpression : Expr
  ascending : Bool
  nullsLast : Bool
deriving DecidableEq, Repr

/-- Modelled from the spec: a row ordering attached to a `CachedTableNode`
(`bigframes.core.ordering`): either a partial `RowOrdering` or a
`TotalOrdering`, each referencing a set of physical columns. -/
inductive RowOrdering where
  | partialOrdering (referencedColumns : List String)
  | totalOrdering (referencedColumns : List String)
deriving DecidableEq, Repr

/-- Embeds `RowOrdering.referenced_columns`. -/
def RowOrdering.referencedColumns : RowOrdering → List String
  | RowOrdering.partialOrdering cols => cols
  | RowOrdering.totalOrdering cols => cols

/-- Embeds `bigframes.core.join_def.JoinSide`. -/
inductive JoinSide where
  | left
  | right
deriving DecidableEq, Repr

/-- Embeds `bigframes.core.join_def.JoinColumnMapping`: source side, source
column id and destination column id of one output column of a join. -/
structure JoinColumnMapping where
  sourceTable : JoinSide
  sourceId : String
  destinationId : String
deriving DecidableEq, Repr

/-- Embeds `bigframes.core.join_def.JoinDefinition` to the extent used by
`JoinNode`: the join type tag and the output column mappings. -/
structure JoinDefinition where
  joinType : String
  mappings : List JoinColumnMapping
deriving DecidableEq, Repr

/-- Modelled from the spec: an aggregation expression of an `AggregateNode`
(`bigframes.core.expression.Aggregation`): an operator tag and an optional
input column. -/
structure Aggregation where
  op : String
  arg : Option String
deriving DecidableEq, Repr

/-- Modelled from the spec: `Aggregation.output_type`; aggregate outputs in
the embedded fragment are integer-typed, and a missing input column models
the lookup error. -/
def Aggregation.outputType (lookup : String → Option Dtype) (a : Aggregation) : Option Dtype :=
  match a.arg with
  | none => some Dtype.int64
  | some c => Option.map (fun _ => Dtype.int64) (lookup c)

/-- Modelled from the spec: the unary window operator of a `WindowOpNode`
(`bigframes.operations.aggregations.UnaryWindowOp`); its output dtype equals
its input dtype in the embedded fragment. -/
structure WindowAggOp where
  opName : String
deriving DecidableEq, Repr

mutual
/-- Embeds the closed set of `BigFrameNode` variants of
`bigframes/core/nodes.py`.  Field lists and field order follow the source
dataclasses (base-class `child` field first for unary nodes).  `session`
objects are identified by numeric ids, `feather_bytes` by its byte list,
`at_time` by a timestamp integer and `fraction` by its bit pattern; the
`selection` variant is the controller-side node used by
`generate_head_plan` (modelled from the spec: drops/renames columns,
keeping listed columns only). -/
inductive Node where
  | readLocal (featherBytes : List Nat) (dataSchema : ArraySchema) (session : Option Nat)
  | readTable (projectId datasetId tableId : String) (physicalSchema : List BqField)
      (columns : ArraySchema) (tableSession : Nat) (totalOrderCols : List String)
      (orderColIsSequential : Bool) (atTime : Option Int) (sqlPredicate : Option String)
  | cachedTable (originalNode : Node) (projectId datasetId tableId : String)
      (physicalSchema : List BqField) (ordering : Option RowOrdering)
  | join (leftChild rightChild : Node) (joinDef : JoinDefinition)
  | concat (children : NodeList)
  | promoteOffsets (child : Node) (colId : String)
  | filter (child : Node) (predicate : Expr)
  | orderBy (child : Node) (sortBy : List OrderingExpression)
  | reversed (child : Node) (rev : Bool)
  | projection (child : Node) (assignments : List (Expr × String))
  | rowCount (child : Node)
  | aggregate (child : Node) (aggregations : List (Aggregation × String))
      (byColumnIds : List String) (dropna : Bool)
  | windowOp (child : Node) (columnName : String) (op : WindowAggOp) (windowSpec : String)
      (outputName : Option String) (neverSkipNulls : Bool) (skipReprojectUnsafe : Bool)
  | reproject (child : Node)
  | randomSample (child : Node) (fractionBits : Nat)
  | explode (child : Node) (columnIds : List String)
  | selection (child : Node) (inputOutputPairs : List (String × String))
deriving DecidableEq

/-- Spine of the `children` tuple of a `ConcatNode`, mutually inductive with
`Node` so that all tree functions are structurally recursive. -/
inductive NodeList where
  | nil
  | cons (head : Node) (tail : NodeList)
deriving DecidableEq
end

/-- View of a `NodeList` spine as an ordinary list. -/
def NodeList.toList : NodeList → List Node
  | NodeList.nil => []
  | NodeList.cons h t => h :: t.toList

/-- Embeds `BigFrameNode.child_nodes`: the direct children of each variant
(`cachedTable.original_node` is explicitly not a child in the source). -/
def childrenNL : Node → NodeList
  | Node.readLocal _ _ _ => NodeList.nil
  | Node.readTable _ _ _ _ _ _ _ _ _ _ => NodeList.nil
  | Node.cachedTable _ _ _ _ _ _ => NodeList.nil
  | Node.join l r _ => NodeList.cons l (NodeList.cons r NodeList.nil)
  | Node.concat cs => cs
  | Node.promoteOffsets c _ => NodeList.cons c NodeList.nil
  | Node.filter c _ => NodeList.cons c NodeList.nil
  | Node.orderBy c _ => NodeList.cons c NodeList.nil
  | Node.reversed c _ => NodeList.cons c NodeList.nil
  | Node.projection c _ => NodeList.cons c NodeList.nil
  | Node.rowCount c => NodeList.cons c NodeList.nil
  | Node.aggregate c _ _ _ => NodeList.cons c NodeList.nil
  | Node.windowOp c _ _ _ _ _ _ => NodeList.cons c NodeList.nil
  | Node.reproject c => NodeList.cons c NodeList.nil
  | Node.randomSample c _ => NodeList.cons c NodeList.nil
  | Node.explode c _ => NodeList.cons c NodeList.nil
  | Node.selection c _ => NodeList.cons c NodeList.nil

/-- Builds the renamed output items of `ConcatNode.schema`: item `i` is
named `column_i` and carries the `i`-th dtype of the first child
(`enumerate` starting at `k`). -/
def concatItems (k : Nat) : List Dtype → List SchemaItem
  | [] => []
  | d :: ds => SchemaItem.mk ("column_" ++ toString k) d :: concatItems (k + 1) ds

/-- Modelled from the spec: the element dtype of an array-typed column, as
used by `ExplodeNode.schema` (`pyarrow_dtype.value_type`); a non-list dtype
models the attribute error. -/
def elementDtype : Dtype → Option Dtype
  | Dtype.listOf e => some e
  | _ => none

/-- Embeds the dtype of one output column of `JoinNode.schema`: the source
column is looked up on the left or right child schema per the mapping. -/
def joinMappingItem (ls rs : ArraySchema) (m : JoinColumnMapping) : Option SchemaItem :=
  match m.sourceTable with
  | JoinSide.left => Option.map (fun d => SchemaItem.mk m.destinationId d) (ls.getType m.sourceId)
  | JoinSide.right => Option.map (fun d => SchemaItem.mk m.destinationId d) (rs.getType m.sourceId)

mutual
/-- Embeds the per-variant `schema` properties of `bigframes/core/nodes.py`.
`none` models a schema computation that raises in the source (missing
column lookup, empty concat, invalid expression type). -/
def schemaOf : Node → Option ArraySchema
  | Node.readLocal _ ds _ => some ds
  | Node.readTable _ _ _ _ cols _ _ _ _ _ => some cols
  | Node.cachedTable orig _ _ _ _ _ => schemaOf orig
  | Node.join l r jd =>
      match schemaOf l, schemaOf r with
      | some ls, some rs => List.mapM (joinMappingItem ls rs) jd.mappings
      | _, _ => none
  | Node.concat cs => Option.map (fun s => concatItems 0 s.dtypes) (schemaHead cs)
  | Node.promoteOffsets c colId =>
      Option.map (fun s => s.prependItem (SchemaItem.mk colId INT_DTYPE)) (schemaOf c)
  | Node.filter c _ => schemaOf c
  | Node.orderBy c _ => schemaOf c
  | Node.reversed c _ => schemaOf c
  | Node.projection c assigns =>
      match schemaOf c with
      | none => none
      | some s =>
          List.mapM
            (fun (p : Expr × String) =>
              Option.map (fun d => SchemaItem.mk p.2 d) (p.1.outputType s.getType))
            assigns
  | Node.rowCount _ => some [SchemaItem.mk "count" INT_DTYPE]
  | Node.aggregate c aggs bys _ =>
      match schemaOf c with
      | none => none
      | some s =>
          match
            List.mapM (fun id => Option.map (fun d => SchemaItem.mk id d) (s.getType id)) bys,
            List.mapM
              (fun (p : Aggregation × String) =>
                Option.map (fun d => SchemaItem.mk p.2 d) (p.1.outputType s.getType))
              aggs
          with
          | some byItems, some aggItems => some (byItems ++ aggItems)
          | _, _ => none
  | Node.windowOp c colName _ _ outName _ _ =>
      match schemaOf c with
      | none => none
      | some s =>
          match s.getType colName with
          | none => none
          | some newDtype =>
              match outName with
              | none => some (s.updateDtype colName newDtype)
              | some onm =>
                  if onm ∈ s.names then some (s.updateDtype onm newDtype)
                  else some (s.appendItem (SchemaItem.mk onm newDtype))
  | Node.reproject c => schemaOf c
  | Node.randomSample c _ => schemaOf c
  | Node.explode c colIds =>
      match schemaOf c with
      | none => none
      | some s =>
          List.mapM
            (fun nm =>
              if nm ∈ colIds then
                match s.getType nm with
                | none => none
                | some d => Option.map (fun e => SchemaItem.mk nm e) (elementDtype d)
              else Option.map (fun d => SchemaItem.mk nm d) (s.getType nm))
            s.names
  | Node.selection c pairs =>
      match schemaOf c with
      | none => none
      | some s =>
          List.mapM
            (fun (p : String × String) =>
              Option.map (fun d => SchemaItem.mk p.2 d) (s.getType p.1))
            pairs

/-- Schema of the first child of a concat (`self.children[0].schema`); an
empty child tuple models the index error. -/
def schemaHead : NodeList → Option ArraySchema
  | NodeList.nil => none
  | NodeList.cons c _ => schemaOf c
end

mutual
/-- Embeds the per-variant `order_ambiguous` properties: unary nodes
propagate the child flag, `JoinNode` is always ambiguous, `ConcatNode` is
ambiguous iff some child is, `ReadTableNode` is ambiguous iff it declares no
total-order columns, `ReadLocalNode` never, `CachedTableNode` iff its
ordering is not a total ordering, and `AggregateNode` never. -/
def orderAmbiguous : Node → Bool
  | Node.readLocal _ _ _ => false
  | Node.readTable _ _ _ _ _ _ totalOrderCols _ _ _ => totalOrderCols.length == 0
  | Node.cachedTable _ _ _ _ _ ordering =>
      match ordering with
      | some (RowOrdering.totalOrdering _) => false
      | _ => true
  | Node.join _ _ _ => true
  | Node.concat cs => orderAmbiguousAny cs
  | Node.promoteOffsets c _ => orderAmbiguous c
  | Node.filter c _ => orderAmbiguous c
  | Node.orderBy c _ => orderAmbiguous c
  | Node.reversed c _ => orderAmbiguous c
  | Node.projection c _ => orderAmbiguous c
  | Node.rowCount c => orderAmbiguous c
  | Node.aggregate _ _ _ _ => false
  | Node.windowOp c _ _ _ _ _ _ => orderAmbiguous c
  | Node.reproject c => orderAmbiguous c
  | Node.randomSample c _ => orderAmbiguous c
  | Node.explode c _ => orderAmbiguous c
  | Node.selection c _ => orderAmbiguous c

/-- Disjunction of `order_ambiguous` over a concat's children
(`any(child.order_ambiguous for child in self.children)`). -/
def orderAmbiguousAny : NodeList → Bool
  | NodeList.nil => false
  | NodeList.cons h t => orderAmbiguous h || orderAmbiguousAny t
end

/-- Embeds the `OVERHEAD_VARIABLES` constant of `bigframes/core/nodes.py`. -/
def OVERHEAD_VARIABLES : Nat := 5

/-- Embeds the per-variant `variables_introduced` properties.  `none` models
the source raising while computing the schema length needed by
`ConcatNode` (`len(self.schema.items) + OVERHEAD_VARIABLES`) and
`CachedTableNode` (`len(self.schema.items) + OVERHEAD_VARIABLES`); all other
variants are schema-independent counts. -/
def variablesIntroduced : Node → Option Nat
  | Node.readLocal _ ds _ => some (ds.length + 1)
  | Node.readTable _ _ _ _ cols _ _ _ _ _ => some (cols.length + 1)
  | n@(Node.cachedTable _ _ _ _ _ _) =>
      Option.map (fun s => List.length s + OVERHEAD_VARIABLES) (schemaOf n)
  | Node.join _ _ _ => some OVERHEAD_VARIABLES
  | n@(Node.concat _) =>
      Option.map (fun s => List.length s + OVERHEAD_VARIABLES) (schemaOf n)
  | Node.promoteOffsets _ _ => some 1
  | Node.filter _ _ => some 1
  | Node.orderBy _ _ => some 0
  | Node.reversed _ _ => some 0
  | Node.projection _ assigns =>
      some (List.length (List.filter (fun (p : Expr × String) => !p.1.isIdentity) assigns))
  | Node.rowCount _ => some 1
  | Node.aggregate _ aggs bys _ => some (aggs.length + bys.length)
  | Node.windowOp _ _ _ _ _ _ _ => some 1
  | Node.reproject _ => some 0
  | Node.randomSample _ _ => some 1
  | Node.explode _ colIds => some (colIds.length + 1)
  | Node.selection _ pairs => some pairs.length

/-- Embeds the per-variant `relation_ops_created` properties (default 1;
`ReadTableNode` 3, `PromoteOffsetsNode` 2, `OrderByNode`/`ReversedNode`/
`ReprojectOpNode` 0, `WindowOpNode` 0 or 4 depending on
`skip_reproject_unsafe`, `ExplodeNode` 3; the modelled selection node keeps
the default). -/
def relationOpsCreated : Node → Nat
  | Node.readLocal _ _ _ => 1
  | Node.readTable _ _ _ _ _ _ _ _ _ _ => 3
  | Node.cachedTable _ _ _ _ _ _ => 1
  | Node.join _ _ _ => 1
  | Node.concat _ => 1
  | Node.promoteOffsets _ _ => 2
  | Node.filter _ _ => 1
  | Node.orderBy _ _ => 0
  | Node.reversed _ _ => 0
  | Node.projection _ _ => 1
  | Node.rowCount _ => 1
  | Node.aggregate _ _ _ _ => 1
  | Node.windowOp _ _ _ _ _ _ skipReprojectUnsafe => if skipReprojectUnsafe then 0 else 4
  | Node.reproject _ => 0
  | Node.randomSample _ _ => 1
  | Node.explode _ _ => 3
  | Node.selection _ _ => 1

/-- Embeds the `joins` property: true only for `JoinNode`. -/
def joinsFlag : Node → Bool
  | Node.join _ _ _ => true
  | _ => false

/-- Option-valued accumulation step used by the `total_variables`
recursion: the node's own count plus the children's accumulated sum. -/
def tvStep (vi : Option Nat) (csum : Option Nat) : Option Nat :=
  Option.bind vi (fun v => Option.map (fun s => v + s) csum)

/-- Option-valued cons of one child total onto the tail sum. -/
def tvCons (h t : Option Nat) : Option Nat :=
  Option.bind h (fun a => Option.map (fun s => a + s) t)

mutual
/-- Embeds `total_variables`: own `variables_introduced` plus the sum over
children; `none` models a raising schema computation somewhere below. -/
def totalVariables : Node → Option Nat
  | n@(Node.readLocal _ _ _) => tvStep (variablesIntroduced n) (some 0)
  | n@(Node.readTable _ _ _ _ _ _ _ _ _ _) => tvStep (variablesIntroduced n) (some 0)
  | n@(Node.cachedTable _ _ _ _ _ _) => tvStep (variablesIntroduced n) (some 0)
  | n@(Node.join l r _) =>
      tvStep (variablesIntroduced n) (tvCons (totalVariables l) (tvCons (totalVariables r) (some 0)))
  | n@(Node.concat cs) => tvStep (variablesIntroduced n) (totalVariablesList cs)
  | n@(Node.promoteOffsets c _) => tvStep (variablesIntroduced n) (tvCons (totalVariables c) (some 0))
  | n@(Node.filter c _) => tvStep (variablesIntroduced n) (tvCons (totalVariables c) (some 0))
  | n@(Node.orderBy c _) => tvStep (variablesIntroduced n) (tvCons (totalVariables c) (some 0))
  | n@(Node.reversed c _) => tvStep (variablesIntroduced n) (tvCons (totalVariables c) (some 0))
  | n@(Node.projection c _) => tvStep (variablesIntroduced n) (tvCons (totalVariables c) (some 0))
  | n@(Node.rowCount c) => tvStep (variablesIntroduced n) (tvCons (totalVariables c) (some 0))
  | n@(Node.aggregate c _ _ _) => tvStep (variablesIntroduced n) (tvCons (totalVariables c) (some 0))
  | n@(Node.windowOp c _ _ _ _ _ _) =>
      tvStep (variablesIntroduced n) (tvCons (totalVariables c) (some 0))
  | n@(Node.reproject c) => tvStep (variablesIntroduced n) (tvCons (totalVariables c) (some 0))
  | n@(Node.randomSample c _) => tvStep (variablesIntroduced n) (tvCons (totalVariables c) (some 0))
  | n@(Node.explode c _) => tvStep (variablesIntroduced n) (tvCons (totalVariables c) (some 0))
  | n@(Node.selection c _) => tvStep (variablesIntroduced n) (tvCons (totalVariables c) (some 0))

/-- Accumulated `total_variables` over a children spine. -/
def totalVariablesList : NodeList → Option Nat
  | NodeList.nil => some 0
  | NodeList.cons h t => tvCons (totalVariables h) (totalVariablesList t)
end

mutual
/-- Embeds `total_relational_ops`: own `relation_ops_created` plus the sum
over children. -/
def totalRelationalOps : Node → Nat
  | n@(Node.readLocal _ _ _) => relationOpsCreated n + 0
  | n@(Node.readTable _ _ _ _ _ _ _ _ _ _) => relationOpsCreated n + 0
  | n@(Node.cachedTable _ _ _ _ _ _) => relationOpsCreated n + 0
  | n@(Node.join l r _) =>
      relationOpsCreated n + (totalRelationalOps l + (totalRelationalOps r + 0))
  | n@(Node.concat cs) => relationOpsCreated n + totalRelationalOpsList cs
  | n@(Node.promoteOffsets c _) => relationOpsCreated n + (totalRelationalOps c + 0)
  | n@(Node.filter c _) => relationOpsCreated n + (totalRelationalOps c + 0)
  | n@(Node.orderBy c _) => relationOpsCreated n + (totalRelationalOps c + 0)
  | n@(Node.reversed c _) => relationOpsCreated n + (totalRelationalOps c + 0)
  | n@(Node.projection c _) => relationOpsCreated n + (totalRelationalOps c + 0)
  | n@(Node.rowCount c) => relationOpsCreated n + (totalRelationalOps c + 0)
  | n@(Node.aggregate c _ _ _) => relationOpsCreated n + (totalRelationalOps c + 0)
  | n@(Node.windowOp c _ _ _ _ _ _) => relationOpsCreated n + (totalRelationalOps c + 0)
  | n@(Node.reproject c) => relationOpsCreated n + (totalRelationalOps c + 0)
  | n@(Node.randomSample c _) => relationOpsCreated n + (totalRelationalOps c + 0)
  | n@(Node.explode c _) => relationOpsCreated n + (totalRelationalOps c + 0)
  | n@(Node.selection c _) => relationOpsCreated n + (totalRelationalOps c + 0)

/-- Accumulated `total_relational_ops` over a children spine. -/
def totalRelationalOpsList : NodeList → Nat
  | NodeList.nil => 0
  | NodeList.cons h t => totalRelationalOps h + totalRelationalOpsList t
end

mutual
/-- Embeds `total_joins`: `int(self.joins)` plus the sum over children. -/
def totalJoins : Node → Nat
  | n@(Node.readLocal _ _ _) => (if joinsFlag n then 1 else 0) + 0
  | n@(Node.readTable _ _ _ _ _ _ _ _ _ _) => (if joinsFlag n then 1 else 0) + 0
  | n@(Node.cachedTable _ _ _ _ _ _) => (if joinsFlag n then 1 else 0) + 0
  | n@(Node.join l r _) =>
      (if joinsFlag n then 1 else 0) + (totalJoins l + (totalJoins r + 0))
  | n@(Node.concat cs) => (if joinsFlag n then 1 else 0) + totalJoinsList cs
  | n@(Node.promoteOffsets c _) => (if joinsFlag n then 1 else 0) + (totalJoins c + 0)
  | n@(Node.filter c _) => (if joinsFlag n then 1 else 0) + (totalJoins c + 0)
  | n@(Node.orderBy c _) => (if joinsFlag n then 1 else 0) + (totalJoins c + 0)
  | n@(Node.reversed c _) => (if joinsFlag n then 1 else 0) + (totalJoins c + 0)
  | n@(Node.projection c _) => (if joinsFlag n then 1 else 0) + (totalJoins c + 0)
  | n@(Node.rowCount c) => (if joinsFlag n then 1 else 0) + (totalJoins c + 0)
  | n@(Node.aggregate c _ _ _) => (if joinsFlag n then 1 else 0) + (totalJoins c + 0)
  | n@(Node.windowOp c _ _ _ _ _ _) => (if joinsFlag n then 1 else 0) + (totalJoins c + 0)
  | n@(Node.reproject c) => (if joinsFlag n then 1 else 0) + (totalJoins c + 0)
  | n@(Node.randomSample c _) => (if joinsFlag n then 1 else 0) + (totalJoins c + 0)
  | n@(Node.explode c _) => (if joinsFlag n then 1 else 0) + (totalJoins c + 0)
  | n@(Node.selection c _) => (if joinsFlag n then 1 else 0) + (totalJoins c + 0)

/-- Accumulated `total_joins` over a children spine. -/
def totalJoinsList : NodeList → Nat
  | NodeList.nil => 0
  | NodeList.cons h t => totalJoins h + totalJoinsList t
end

/-- Embeds `planning_complexity = total_variables * total_relational_ops *
(1 + total_joins)`; `none` models a raising schema computation below. -/
def planningComplexity (n : Node) : Option Nat :=
  Option.map (fun v => v * totalRelationalOps n * (1 + totalJoins n)) (totalVariables n)

/-- Embeds the body of `BigFrameNode.session` after the child sessions are
gathered: `None`-valued child sessions are dropped, more than one distinct
session is a `ValueError`, exactly one yields the first gathered session,
and zero yields `None`. -/
def resolveSessions (ss : List (Option Nat)) : Except String (Option Nat) :=
  let sessions := List.filterMap id ss
  if 1 < sessions.dedup.length then
    Except.error ("Cannot use combine sources from multiple sessions.")
  else Except.ok sessions.head?

mutual
/-- Embeds the `session` properties: `ReadLocalNode` carries an optional
owning session field, `ReadTableNode` returns its `table_session`,
`CachedTableNode` delegates to its original node, and every other variant
resolves the sessions collected from its children (raising on a mix). -/
def sessionOf : Node → Except String (Option Nat)
  | Node.readLocal _ _ sess => Except.ok sess
  | Node.readTable _ _ _ _ _ tableSession _ _ _ _ => Except.ok (some tableSession)
  | Node.cachedTable orig _ _ _ _ _ => sessionOf orig
  | Node.join l r _ =>
      Except.bind (sessionOf l) (fun a =>
        Except.bind (sessionOf r) (fun b => resolveSessions [a, b]))
  | Node.concat cs => Except.bind (sessionOfList cs) resolveSessions
  | Node.promoteOffsets c _ => Except.bind (sessionOf c) (fun a => resolveSessions [a])
  | Node.filter c _ => Except.bind (sessionOf c) (fun a => resolveSessions [a])
  | Node.orderBy c _ => Except.bind (sessionOf c) (fun a => resolveSessions [a])
  | Node.reversed c _ => Except.bind (sessionOf c) (fun a => resolveSessions [a])
  | Node.projection c _ => Except.bind (sessionOf c) (fun a => resolveSessions [a])
  | Node.rowCount c => Except.bind (sessionOf c) (fun a => resolveSessions [a])
  | Node.aggregate c _ _ _ => Except.bind (sessionOf c) (fun a => resolveSessions [a])
  | Node.windowOp c _ _ _ _ _ _ => Except.bind (sessionOf c) (fun a => resolveSessions [a])
  | Node.reproject c => Except.bind (sessionOf c) (fun a => resolveSessions [a])
  | Node.randomSample c _ => Except.bind (sessionOf c) (fun a => resolveSessions [a])
  | Node.explode c _ => Except.bind (sessionOf c) (fun a => resolveSessions [a])
  | Node.selection c _ => Except.bind (sessionOf c) (fun a => resolveSessions [a])

/-- Collects `child.session` over a children spine, propagating a raise. -/
def sessionOfList : NodeList → Except String (List (Option Nat))
  | NodeList.nil => Except.ok []
  | NodeList.cons h t =>
      Except.bind (sessionOf h) (fun a =>
        Except.bind (sessionOfList t) (fun rest => Except.ok (a :: rest)))
end

/-- Boolean error test for `Except` results. -/
def isErr {ε α : Type} : Except ε α → Bool
  | Except.error _ => true
  | Except.ok _ => false

/-- Insertion step of the string sort used by `CachedTableNode.hidden_columns`. -/
def insertStr (x : String) : List String → List String
  | [] => [x]
  | y :: ys => if decide (x ≤ y) then x :: y :: ys else y :: insertStr x ys

/-- Embeds the `sorted(...)` call of `CachedTableNode.hidden_columns`. -/
def sortStrings : List String → List String
  | [] => []
  | x :: xs => insertStr x (sortStrings xs)

/-- Embeds `CachedTableNode.hidden_columns`: ordering columns not exposed
as value columns, over the logical schema `s` of the original node. -/
def hiddenColumns (s : ArraySchema) (ordering : Option RowOrdering) : List String :=
  match ordering with
  | none => []
  | some o =>
      List.filter (fun c => !(decide (c ∈ s.names))) (sortStrings o.referencedColumns)

/-- Embeds `ConcatNode.__post_init__`: zero children is a `ValueError`
raised first; a raising child schema propagates; children whose positional
dtype sequences are not all identical is a `ValueError`. -/
def concatChecks (cs : NodeList) : Except String Unit :=
  if cs.toList.length = 0 then
    Except.error ("Concat requires at least one input table. Zero provided.")
  else
    match List.mapM (fun c => Option.map ArraySchema.dtypes (schemaOf c)) cs.toList with
    | none => Except.error ("child schema is not derivable")
    | some childSchemas =>
        if childSchemas.dedup.length = 1 then Except.ok ()
        else Except.error ("All inputs must have identical dtypes.")

/-- Embeds `OrderByNode.__post_init__`: every unbound variable of every sort
expression must be a column of the child schema. -/
def orderByChecks (child : Node) (sortBy : List OrderingExpression) : Except String Unit :=
  match schemaOf child with
  | none => Except.error ("child schema is not derivable")
  | some s =>
      if List.all sortBy
          (fun oe => List.all oe.scalarExpression.unboundVariables
            (fun v => decide (v ∈ s.names))) then
        Except.ok ()
      else Except.error ("Cannot over unknown id")

/-- Embeds `ReadTableNode.__post_init__`: the requested logical columns must
be a subset of the physical column names, and the sequential-order flag
requires exactly one total-order column. -/
def readTableChecks (physicalSchema : List BqField) (columns : ArraySchema)
    (totalOrderCols : List String) (orderColIsSequential : Bool) : Except String Unit :=
  let physicalNames := List.map BqField.name physicalSchema
  if !(List.all columns.names (fun n => decide (n ∈ physicalNames))) then
    Except.error ("Requested schema cannot be derived from table schema")
  else if orderColIsSequential && !(totalOrderCols.length = 1) then
    Except.error ("Sequential primary key must have only one component")
  else Except.ok ()

/-- Embeds `CachedTableNode.__post_init__`: the logical column names of the
original node, and the hidden ordering columns, must each be subsets of the
physical column names. -/
def cachedTableChecks (orig : Node) (physicalSchema : List BqField)
    (ordering : Option RowOrdering) : Except String Unit :=
  match schemaOf orig with
  | none => Except.error ("original schema is not derivable")
  | some s =>
      let physicalNames := List.map BqField.name physicalSchema
      if !(List.all s.names (fun n => decide (n ∈ physicalNames))) then
        Except.error ("Requested schema cannot be derived from table schema")
      else if !(List.all (hiddenColumns s ordering) (fun n => decide (n ∈ physicalNames))) then
        Except.error ("Requested hidden columns cannot be derived from table schema")
      else Except.ok ()

/-- Embeds `ProjectionNode.__post_init__`: each assignment expression must
type-check against the child schema. -/
def projectionChecks (child : Node) (assigns : List (Expr × String)) : Except String Unit :=
  match schemaOf child with
  | none => Except.error ("child schema is not derivable")
  | some s =>
      if List.all assigns (fun p => Option.isSome (p.1.outputType s.getType)) then Except.ok ()
      else Except.error ("invalid expression type")

/-- Smart constructor for `ConcatNode`: the `__post_init__` checks run at
construction and an error means no node is produced. -/
def mkConcat (cs : NodeList) : Except String Node :=
  Except.map (fun _ => Node.concat cs) (concatChecks cs)

/-- Smart constructor for `OrderByNode`. -/
def mkOrderBy (child : Node) (sortBy : List OrderingExpression) : Except String Node :=
  Except.map (fun _ => Node.orderBy child sortBy) (orderByChecks child sortBy)

/-- Smart constructor for `ReadTableNode`. -/
def mkReadTable (projectId datasetId tableId : String) (physicalSchema : List BqField)
    (columns : ArraySchema) (tableSession : Nat) (totalOrderCols : List String)
    (orderColIsSequential : Bool) (atTime : Option Int) (sqlPredicate : Option String) :
    Except String Node :=
  Except.map
    (fun _ => Node.readTable projectId datasetId tableId physicalSchema columns tableSession
      totalOrderCols orderColIsSequential atTime sqlPredicate)
    (readTableChecks physicalSchema columns totalOrderCols orderColIsSequential)

/-- Smart constructor for `CachedTableNode`. -/
def mkCachedTable (orig : Node) (projectId datasetId tableId : String)
    (physicalSchema : List BqField) (ordering : Option RowOrdering) : Except String Node :=
  Except.map (fun _ => Node.cachedTable orig projectId datasetId tableId physicalSchema ordering)
    (cachedTableChecks orig physicalSchema ordering)

mutual
/-- Runs every `__post_init__` validation of every node of a tree, modelling
bottom-up construction: a tree is constructible exactly when this returns
`ok` (`JoinNode` and the remaining variants define no `__post_init__`). -/
def treeChecks : Node → Except String Unit
  | Node.readLocal _ _ _ => Except.ok ()
  | Node.readTable _ _ _ physicalSchema columns _ totalOrderCols seq _ _ =>
      readTableChecks physicalSchema columns totalOrderCols seq
  | Node.cachedTable orig _ _ _ physicalSchema ordering =>
      Except.bind (treeChecks orig) (fun _ => cachedTableChecks orig physicalSchema ordering)
  | Node.join l r _ => Except.bind (treeChecks l) (fun _ => treeChecks r)
  | Node.concat cs => Except.bind (treeChecksList cs) (fun _ => concatChecks cs)
  | Node.promoteOffsets c _ => treeChecks c
  | Node.filter c _ => treeChecks c
  | Node.orderBy c sortBy => Except.bind (treeChecks c) (fun _ => orderByChecks c sortBy)
  | Node.reversed c _ => treeChecks c
  | Node.projection c assigns => Except.bind (treeChecks c) (fun _ => projectionChecks c assigns)
  | Node.rowCount c => treeChecks c
  | Node.aggregate c _ _ _ => treeChecks c
  | Node.windowOp c _ _ _ _ _ _ => treeChecks c
  | Node.reproject c => treeChecks c
  | Node.randomSample c _ => treeChecks c
  | Node.explode c _ => treeChecks c
  | Node.selection c _ => treeChecks c

/-- Validation over a children spine. -/
def treeChecksList : NodeList → Except String Unit
  | NodeList.nil => Except.ok ()
  | NodeList.cons h t => Except.bind (treeChecks h) (fun _ => treeChecksList t)
end

/-- Modulus of CPython's documented numeric hash: `2^61 - 1` on 64-bit
builds (`sys.hash_info.modulus`). -/
def pyHashModulus : Int := 2 ^ 61 - 1

/-- Embeds CPython's documented integer hash: reduction modulo `2^61 - 1`
preserving sign, with the reserved value `-1` remapped to `-2`.  In
particular `hash (-1) = hash (-2) = -2`. -/
def pyIntHash (n : Int) : Int :=
  let m := if 0 ≤ n then n % pyHashModulus else -((-n) % pyHashModulus)
  if m = -1 then -2 else m

/-- Hash of a Python bool (`hash True = 1`, `hash False = 0`). -/
def pyBoolHash (b : Bool) : Int := if b then 1 else 0

/-- First xxHash prime of CPython's tuple hash. -/
def xxPrime1 : Nat := 11400714785074694791

/-- Second xxHash prime of CPython's tuple hash. -/
def xxPrime2 : Nat := 14029467366897019727

/-- Fifth xxHash prime of CPython's tuple hash (the accumulator seed). -/
def xxPrime5 : Nat := 2870177450012600261

/-- Truncation to an unsigned 64-bit lane. -/
def toU64 (n : Int) : Nat := (n % (2 ^ 64 : Int)).toNat

/-- Left rotation by 31 of an unsigned 64-bit value. -/
def rotl31 (x : Nat) : Nat := ((x * 2 ^ 31) % 2 ^ 64) + (x % 2 ^ 64) / 2 ^ 33

/-- Signed view of an unsigned 64-bit value (`Py_hash_t`). -/
def fromU64 (u : Nat) : Int := if u < 2 ^ 63 then (u : Int) else (u : Int) - 2 ^ 64

/-- Embeds CPython's tuple hash (the xxHash-based combine of 3.8+): each
element contributes its own hash as a lane; the result never equals the
reserved error value.  The trees' structural hash is built from this
combine, so the only property the development relies on is that it is a
function of the lane list. -/
def pyTupleHash (hs : List Int) : Int :=
  let acc := List.foldl
    (fun a lane => (rotl31 ((a + toU64 lane * xxPrime2) % 2 ^ 64) * xxPrime1) % 2 ^ 64)
    xxPrime5 hs
  let acc2 := (acc + (hs.length ^^^ (xxPrime5 ^^^ 3527539))) % 2 ^ 64
  if acc2 = 2 ^ 64 - 1 then 1546275796 else fromU64 acc2

/-- Process-dependent atom hashes: CPython randomizes the hashes of strings
and bytes per interpreter run (`PYTHONHASHSEED`) and derives the hashes of
session objects, datetimes, floats and dtype objects from data not modelled
here, so those atom hashes are environment parameters.  Every theorem about
the structural hash holds for every such environment. -/
structure HashEnv where
  strHash : String → Int
  bytesHash : List Nat → Int
  sessionHash : Nat → Int
  datetimeHash : Int → Int
  floatHash : Nat → Int
  dtypeHash : Dtype → Int
  noneHash : Int

/-- Hash of a Python `Optional` value: the `None` singleton's hash or the
payload's hash. -/
def optHash {α : Type} (noneH : Int) (f : α → Int) : Option α → Int
  | none => noneH
  | some a => f a

/-- Embeds `BigFrameNode._node_hash`'s outer combine,
`hash(tuple(hash(getattr(self, field.name)) for field in fields(self)))`:
the tuple elements are the integer field hashes, so each lane is the
integer hash of a field hash. -/
def hashFields (hs : List Int) : Int :=
  pyTupleHash (List.map pyIntHash hs)

/-- Hash of a frozen dataclass value, `hash((f1, ..., fn))`: the field
values' hashes are the lanes. -/
def dcHash (hs : List Int) : Int := pyTupleHash hs

/-- Hash of a `SchemaItem` dataclass value. -/
def schemaItemHash (env : HashEnv) (it : SchemaItem) : Int :=
  dcHash [env.strHash it.name, env.dtypeHash it.dtype]

/-- Hash of an `ArraySchema` dataclass value (one `items` tuple field). -/
def arraySchemaHash (env : HashEnv) (s : ArraySchema) : Int :=
  dcHash [pyTupleHash (List.map (schemaItemHash env) s)]

/-- Hash of a physical schema field. -/
def bqFieldHash (env : HashEnv) (f : BqField) : Int :=
  dcHash [env.strHash f.name, env.strHash f.fieldType]

/-- Hash of a scalar expression dataclass value. -/
def exprHash (env : HashEnv) : Expr → Int
  | Expr.const v => dcHash [pyIntHash v]
  | Expr.freeVar id => dcHash [env.strHash id]
  | Expr.binOp op l r => dcHash [env.strHash op, exprHash env l, exprHash env r]

/-- Hash of an ordering expression dataclass value. -/
def orderingExprHash (env : HashEnv) (oe : OrderingExpression) : Int :=
  dcHash [exprHash env oe.scalarExpression, pyBoolHash oe.ascending, pyBoolHash oe.nullsLast]

/-- Hash of a join side enum member. -/
def joinSideHash : JoinSide → Int
  | JoinSide.left => pyIntHash 0
  | JoinSide.right => pyIntHash 1

/-- Hash of a join column mapping dataclass value. -/
def joinColumnMappingHash (env : HashEnv) (m : JoinColumnMapping) : Int :=
  dcHash [joinSideHash m.sourceTable, env.strHash m.sourceId, env.strHash m.destinationId]

/-- Hash of a join definition dataclass value. -/
def joinDefHash (env : HashEnv) (jd : JoinDefinition) : Int :=
  dcHash [env.strHash jd.joinType, pyTupleHash (List.map (joinColumnMappingHash env) jd.mappings)]

/-- Hash of an aggregation dataclass value. -/
def aggregationHash (env : HashEnv) (a : Aggregation) : Int :=
  dcHash [env.strHash a.op, optHash env.noneHash env.strHash a.arg]

/-- Hash of a window operator value. -/
def windowAggOpHash (env : HashEnv) (op : WindowAggOp) : Int :=
  dcHash [env.strHash op.opName]

/-- Hash of a row ordering value. -/
def rowOrderingHash (env : HashEnv) : RowOrdering → Int
  | RowOrdering.partialOrdering cols =>
      dcHash [pyIntHash 0, pyTupleHash (List.map env.strHash cols)]
  | RowOrdering.totalOrdering cols =>
      dcHash [pyIntHash 1, pyTupleHash (List.map env.strHash cols)]

mutual
/-- Embeds the per-variant `__hash__` methods: every variant except
`RowCountNode` defines `__hash__ = _node_hash`, the hash of the tuple of
the integer field hashes in dataclass field order (so each lane is the
integer hash of a field hash), with child nodes contributing their own
(structurally recursive) node hash.  `RowCountNode` defines no `__hash__`
of its own, so it keeps the dataclass-generated `hash((child,))`, whose
single lane is the child's hash directly. -/
def nodeHash (env : HashEnv) : Node → Int
  | Node.readLocal fb ds sess =>
      hashFields [env.bytesHash fb, arraySchemaHash env ds,
        optHash env.noneHash env.sessionHash sess]
  | Node.readTable pid did tid phys cols ts tocols seq atTime sqlPred =>
      hashFields [env.strHash pid, env.strHash did, env.strHash tid,
        pyTupleHash (List.map (bqFieldHash env) phys), arraySchemaHash env cols,
        env.sessionHash ts, pyTupleHash (List.map env.strHash tocols), pyBoolHash seq,
        optHash env.noneHash env.datetimeHash atTime, optHash env.noneHash env.strHash sqlPred]
  | Node.cachedTable orig pid did tid phys ordering =>
      hashFields [nodeHash env orig, env.strHash pid, env.strHash did, env.strHash tid,
        pyTupleHash (List.map (bqFieldHash env) phys),
        optHash env.noneHash (rowOrderingHash env) ordering]
  | Node.join l r jd => hashFields [nodeHash env l, nodeHash env r, joinDefHash env jd]
  | Node.concat cs => hashFields [pyTupleHash (nodeHashList env cs)]
  | Node.promoteOffsets c colId => hashFields [nodeHash env c, env.strHash colId]
  | Node.filter c p => hashFields [nodeHash env c, exprHash env p]
  | Node.orderBy c sortBy =>
      hashFields [nodeHash env c, pyTupleHash (List.map (orderingExprHash env) sortBy)]
  | Node.reversed c rev => hashFields [nodeHash env c, pyBoolHash rev]
  | Node.projection c assigns =>
      hashFields [nodeHash env c,
        pyTupleHash (List.map
          (fun (p : Expr × String) => pyTupleHash [exprHash env p.1, env.strHash p.2]) assigns)]
  | Node.rowCount c => dcHash [nodeHash env c]
  | Node.aggregate c aggs bys dropna =>
      hashFields [nodeHash env c,
        pyTupleHash (List.map
          (fun (p : Aggregation × String) =>
            pyTupleHash [aggregationHash env p.1, env.strHash p.2]) aggs),
        pyTupleHash (List.map env.strHash bys), pyBoolHash dropna]
  | Node.windowOp c colName op wspec outName nsn sru =>
      hashFields [nodeHash env c, env.strHash colName, windowAggOpHash env op,
        env.strHash wspec, optHash env.noneHash env.strHash outName,
        pyBoolHash nsn, pyBoolHash sru]
  | Node.reproject c => hashFields [nodeHash env c]
  | Node.randomSample c frac => hashFields [nodeHash env c, env.floatHash frac]
  | Node.explode c colIds =>
      hashFields [nodeHash env c, pyTupleHash (List.map env.strHash colIds)]
  | Node.selection c pairs =>
      hashFields [nodeHash env c,
        pyTupleHash (List.map
          (fun (p : String × String) => pyTupleHash [env.strHash p.1, env.strHash p.2]) pairs)]

/-- Node hashes over a children spine, in order. -/
def nodeHashList (env : HashEnv) : NodeList → List Int
  | NodeList.nil => []
  | NodeList.cons h t => nodeHash env h :: nodeHashList env t
end

/-- Embeds dataclass equality of node trees: two nodes compare equal
exactly when they have the same variant and, recursively, identical
parameters at every node — i.e. structural equality. -/
def structIdentical (a b : Node) : Bool := decide (a = b)

/-- Concrete hash environment used to evaluate the structural hash on
closed examples: a deterministic stand-in for the process-randomized atom
hashes (every structural-hash theorem in this file also holds for every
other environment). -/
def defaultHashEnv : HashEnv where
  strHash s := fromU64 (List.foldl (fun a c => (a * 31 + c.toNat) % 2 ^ 61) 7 s.toList)
  bytesHash bs := fromU64 (List.foldl (fun a b => (a * 31 + b) % 2 ^ 61) 11 bs)
  sessionHash n := pyIntHash (n : Int)
  datetimeHash t := pyIntHash t
  floatHash bits := pyIntHash (bits : Int)
  dtypeHash d :=
    match d with
    | Dtype.int64 => pyIntHash 101
    | Dtype.float64 => pyIntHash 102
    | Dtype.string => pyIntHash 103
    | Dtype.bool => pyIntHash 104
    | Dtype.listOf _ => pyIntHash 105
  noneHash := pyIntHash 106

/-- Embeds `QUERY_COMPLEXITY_LIMIT = 1e7` of `bigframes/session/executor.py`
(the float is integer-valued, and only compared against integer
complexities, so it is embedded as the natural number `10^7`). -/
def QUERY_COMPLEXITY_LIMIT : Nat := 10 ^ 7

/-- Embeds `MAX_SUBTREE_FACTORINGS = 5`. -/
def MAX_SUBTREE_FACTORINGS : Nat := 5

/-- Embeds `_MAX_CLUSTER_COLUMNS = 4`. -/
def MAX_CLUSTER_COLUMNS : Nat := 4

/-- Environment of the complexity-bounded factoring loop over an abstract
cache-state type `α`.  `optComplexity` is the planning complexity of the
cache-optimized plan under a cache state (the composition of
`_get_optimized_plan` — whose `tree_properties.replace_nodes` substitution
is outside this unit — with `planning_complexity`); `selectCacheTarget` is
modelled from the spec (`tree_properties.select_cache_target`: best subtree
within a minimum/maximum complexity band, or none); `cacheStep` is the
cache registration performed by `_cache_with_cluster_cols`.  All theorems
about the loop hold for every environment, hence for every tree shape. -/
structure SimplifyEnv (α : Type) where
  optComplexity : α → Nat
  selectCacheTarget : Nat → Nat → α → Option Node
  cacheStep : Node → α → α

/-- Embeds `_cache_most_complex_subtree`: select a cache target between
`QUERY_COMPLEXITY_LIMIT / 500` and `QUERY_COMPLEXITY_LIMIT`; if none
qualifies report no caching, otherwise register the materialization. -/
def cacheMostComplexSubtree {α : Type} (env : SimplifyEnv α) (st : α) : Option α :=
  match env.selectCacheTarget (QUERY_COMPLEXITY_LIMIT / 500) QUERY_COMPLEXITY_LIMIT st with
  | none => none
  | some sel => some (env.cacheStep sel st)

/-- Reason the factoring loop stopped. -/
inductive SimplifyStop where
  | belowLimit
  | noTarget
  | budgetExhausted
deriving DecidableEq, Repr

/-- Embeds the loop body of `_simplify_with_caching`: up to `fuel`
iterations; on each, return if the optimized plan's complexity is below the
ceiling, return if no subtree qualifies for caching, otherwise materialize
and continue.  The result records the final cache state, the stop reason
and the number of materializations performed; exhausting the budget
returns normally (execution proceeds anyway). -/
def simplifyLoop {α : Type} (env : SimplifyEnv α) : Nat → α → α × SimplifyStop × Nat
  | 0, st => (st, SimplifyStop.budgetExhausted, 0)
  | fuel + 1, st =>
      if env.optComplexity st < QUERY_COMPLEXITY_LIMIT then (st, SimplifyStop.belowLimit, 0)
      else
        match cacheMostComplexSubtree env st with
        | none => (st, SimplifyStop.noTarget, 0)
        | some st2 =>
            let r := simplifyLoop env fuel st2
            (r.1, r.2.1, r.2.2 + 1)

/-- Embeds `_simplify_with_caching`: the loop run with the fixed iteration
budget `MAX_SUBTREE_FACTORINGS`. -/
def simplifyWithCaching {α : Type} (env : SimplifyEnv α) (st : α) : α × SimplifyStop × Nat :=
  simplifyLoop env MAX_SUBTREE_FACTORINGS st

/-- Environment of the `head` dispatch.  The collaborators that live
outside the two source files are oracles: `optimize` is
`_get_optimized_plan` (cache substitution), `rowCountMeta` is
`tree_properties.row_count` (statically known row count), `canFastHead` is
`tree_properties.can_fast_head` (cheap bounded ordered read feasible),
`explicitlyOrdered` is the plan's explicit-user-ordering flag,
`optimizeAfterOffsetCache` is `_get_optimized_plan` re-run after
`_cache_with_offsets` registered the offset-strategy materialization, and
`offsetsId` is the fresh column id produced by the guid generator. -/
structure ExecEnv where
  strictlyOrdered : Bool
  optimize : Node → Node
  rowCountMeta : Node → Option Nat
  canFastHead : Node → Bool
  explicitlyOrdered : Node → Bool
  optimizeAfterOffsetCache : Node → Node
  offsetsId : String

/-- Observable successful outcome of `head`: a full ordered execution of
the plan as-is, a delegation to `peek`, or compiling and executing a
derived head plan (with `cachedFirst` recording whether an offset-strategy
materialization was forced first).  The failing outcome — the `ValueError`
raised by `_cache_with_offsets` in non-strict mode — is the `error` side of
the surrounding `Except`. -/
inductive HeadAction where
  | executeOrdered (plan : Node)
  | peekAt (plan : Node) (nRows : Nat)
  | runHeadPlan (cachedFirst : Bool) (derived : Option Node)
deriving DecidableEq

/-- Embeds `generate_head_plan`: promote an offset column named by the guid,
filter `offset < n`, then drop the offset column through a selection that
keeps exactly the original schema's column names (`(i, i)` for every name).
`none` models the source raising while reading `node.schema.names`. -/
def generateHeadPlan (offsetsId : String) (node : Node) (n : Nat) : Option Node :=
  Option.map
    (fun s =>
      Node.selection
        (Node.filter (Node.promoteOffsets node offsetsId)
          (Expr.binOp "lt_op" (Expr.freeVar offsetsId) (Expr.const (n : Int))))
        (List.map (fun i => (i, i)) s.names))
    (schemaOf node)

/-- Embeds the guard at the top of `_cache_with_offsets`: caching with
offsets is only supported in strictly ordered mode, and in non-strict mode
the call raises a `ValueError` instead of materializing. -/
def cacheWithOffsetsGuard (env : ExecEnv) : Except String Unit :=
  if !env.strictlyOrdered then
    Except.error ("Caching with offsets only supported in strictly ordered mode.")
  else Except.ok ()

/-- Embeds the tail of `head` after the static row count check failed: peek
in non-strict mode without explicit ordering; otherwise take the optimized
plan and, when a cheap bounded ordered read is not already supported, call
`_cache_with_offsets` — which raises in non-strict mode (an explicitly
ordered plan can reach this branch with `strictly_ordered` false) — before
compiling the derived head plan over the re-optimized tree. -/
def headRest (env : ExecEnv) (node : Node) (n : Nat) : Except String HeadAction :=
  if !env.strictlyOrdered && !env.explicitlyOrdered node then
    Except.ok (HeadAction.peekAt node n)
  else
    let plan := env.optimize node
    if env.canFastHead plan then
      Except.ok (HeadAction.runHeadPlan false (generateHeadPlan env.offsetsId plan n))
    else
      Except.bind (cacheWithOffsetsGuard env) (fun _ =>
        Except.ok (HeadAction.runHeadPlan true
          (generateHeadPlan env.offsetsId (env.optimizeAfterOffsetCache node) n)))

/-- Embeds `BigQueryCachingExecutor.head`: a statically known row count that
is at most `n` yields a full ordered execution of the plan as-is; otherwise
dispatch continues in `headRest` (which may raise through the
offset-caching guard). -/
def headDispatch (env : ExecEnv) (node : Node) (n : Nat) : Except String HeadAction :=
  match env.rowCountMeta (env.optimize node) with
  | some c =>
      if c ≤ n then Except.ok (HeadAction.executeOrdered node) else headRest env node n
  | none => headRest env node n

theorem NodeList.toList_nil : NodeList.toList NodeList.nil = [] := rfl

theorem NodeList.toList_cons (h : Node) (t : NodeList) :
    NodeList.toList (NodeList.cons h t) = h :: t.toList := rfl

/-- The concat disjunction agrees with `List.any` over the children list. -/
theorem orderAmbiguousAny_eq_any :
    ∀ l : NodeList, orderAmbiguousAny l = List.any l.toList orderAmbiguous
  | NodeList.nil => rfl
  | NodeList.cons h t => by
      simp [orderAmbiguousAny, NodeList.toList, orderAmbiguousAny_eq_any t]

/-- Example leaf: a local in-memory read with an empty schema. -/
def exLeaf : Node := Node.readLocal [] [] none

/-- Example table read with no declared total-order columns. -/
def exReadTable : Node :=
  Node.readTable "project" "dataset" "table" [BqField.mk "k" "INTEGER"]
    [SchemaItem.mk "k" Dtype.int64] 1 [] false none none

/-- Example filter over `exReadTable`. -/
def exFilter : Node := Node.filter exReadTable (Expr.freeVar "k")

/-- Example aggregate over `exFilter`, grouped by column `k`. -/
def exAggregate : Node :=
  Node.aggregate exFilter [(Aggregation.mk "count" none, "n")] ["k"] true

/-- C9: base rules of the `order_ambiguous` flag — a `JoinNode` is always
order-ambiguous; a `ConcatNode` is order-ambiguous iff at least one child
is; a `ReadTableNode` is order-ambiguous iff it declares zero total-order
columns; a `ReadLocalNode` is never order-ambiguous. -/
theorem c9_order_ambiguous_base_rules :
    (∀ l r jd, orderAmbiguous (Node.join l r jd) = true)
    ∧ (∀ cs, orderAmbiguous (Node.concat cs) =
        List.any (NodeList.toList cs) orderAmbiguous)
    ∧ (∀ pid did tid phys cols ts tocols seq atTime sqlPred,
        orderAmbiguous
          (Node.readTable pid did tid phys cols ts tocols seq atTime sqlPred) =
        decide (tocols.length = 0))
    ∧ (∀ fb ds sess, orderAmbiguous (Node.readLocal fb ds sess) = false) := by
  refine ⟨fun _ _ _ => rfl, fun cs => ?_, fun _ _ _ _ _ _ tocols _ _ _ => ?_, fun _ _ _ => rfl⟩
  · simpa [orderAmbiguous] using orderAmbiguousAny_eq_any cs
  · cases tocols <;> rfl

/-- C2 counterexample: in the concrete chain `ReadTable` (zero declared
total-order columns) wrapped by `Filter` wrapped by `Aggregate` grouped by
column `k`, the `order_ambiguous` flag is true at the `ReadTable` and the
`Filter` but false at the `Aggregate` root, because `AggregateNode`
overrides the flag to `False`; so the flag is not true at every node of the
chain. -/
theorem c2_aggregate_not_ambiguous_counterexample :
    orderAmbiguous exReadTable = true
    ∧ orderAmbiguous exFilter = true
    ∧ orderAmbiguous exAggregate = false := by
  refine ⟨rfl, rfl, rfl⟩

/-- C2 (amended): `order_ambiguous` propagates unchanged from the child
through generic unary nodes such as `Filter`, and a `ReadTable` with zero
declared total-order columns is ambiguous, but `AggregateNode` always
reports `order_ambiguous = False`; in the `ReadTable → Filter → Aggregate`
chain the flag is therefore true at the `ReadTable` and the `Filter` and
false at the `Aggregate` root. -/
theorem c2_order_ambiguous_propagation_amended :
    (∀ c p, orderAmbiguous (Node.filter c p) = orderAmbiguous c)
    ∧ (∀ pid did tid phys cols ts seq atTime sqlPred,
        orderAmbiguous
          (Node.readTable pid did tid phys cols ts [] seq atTime sqlPred) = true)
    ∧ (∀ c aggs bys dropna, orderAmbiguous (Node.aggregate c aggs bys dropna) = false) := by
  exact ⟨fun _ _ => rfl, fun _ _ _ _ _ _ _ _ _ => rfl, fun _ _ _ _ => rfl⟩

/-- Per-variant unfolding of `total_relational_ops`: own count plus the
accumulated children count. -/
theorem totalRelationalOps_char (n : Node) :
    totalRelationalOps n = relationOpsCreated n + totalRelationalOpsList (childrenNL n) := by
  cases n <;> rfl

/-- Per-variant unfolding of `total_joins`. -/
theorem totalJoins_char (n : Node) :
    totalJoins n = (if joinsFlag n then 1 else 0) + totalJoinsList (childrenNL n) := by
  cases n <;> rfl

/-- Per-variant unfolding of `total_variables`. -/
theorem totalVariables_char (n : Node) :
    totalVariables n = tvStep (variablesIntroduced n) (totalVariablesList (childrenNL n)) := by
  cases n <;> rfl

/-- The accumulated relational-op count is the sum over the children list. -/
theorem totalRelationalOpsList_eq_sum :
    ∀ l : NodeList, totalRelationalOpsList l = (List.map totalRelationalOps l.toList).sum
  | NodeList.nil => rfl
  | NodeList.cons h t => by
      simp [totalRelationalOpsList, NodeList.toList, totalRelationalOpsList_eq_sum t]

/-- The accumulated join count is the sum over the children list. -/
theorem totalJoinsList_eq_sum :
    ∀ l : NodeList, totalJoinsList l = (List.map totalJoins l.toList).sum
  | NodeList.nil => rfl
  | NodeList.cons h t => by
      simp [totalJoinsList, NodeList.toList, totalJoinsList_eq_sum t]

/-- The accumulated variable count is the sum of the children's counts when
all are defined, and undefined otherwise. -/
theorem totalVariablesList_eq_mapM :
    ∀ l : NodeList,
      totalVariablesList l = Option.map List.sum (List.mapM totalVariables l.toList)
  | NodeList.nil => rfl
  | NodeList.cons h t => by
      rw [NodeList.toList_cons, List.mapM_cons]
      have ih := totalVariablesList_eq_mapM t
      unfold totalVariablesList tvCons
      rw [ih]
      cases totalVariables h <;> cases List.mapM totalVariables t.toList <;>
        simp [Option.map, Option.bind, bind, pure]

/-- C4: for every node, `planning_complexity` equals `total_variables` times
`total_relational_ops` times one plus `total_joins`, where
`total_variables` is the node's own `variables_introduced` plus the sum of
the children's `total_variables`, `total_relational_ops` is its own
`relation_ops_created` plus the children's sum, and `total_joins` is one
for a join node and zero otherwise plus the children's sum. -/
theorem c4_planning_complexity_formula (n : Node) :
    planningComplexity n =
      Option.map (fun v => v * totalRelationalOps n * (1 + totalJoins n)) (totalVariables n)
    ∧ totalVariables n =
        tvStep (variablesIntroduced n)
          (Option.map List.sum (List.mapM totalVariables (childrenNL n).toList))
    ∧ totalRelationalOps n =
        relationOpsCreated n + (List.map totalRelationalOps (childrenNL n).toList).sum
    ∧ totalJoins n =
        (if joinsFlag n then 1 else 0) + (List.map totalJoins (childrenNL n).toList).sum := by
  refine ⟨rfl, ?_, ?_, ?_⟩
  · rw [totalVariables_char n, totalVariablesList_eq_mapM]
  · rw [totalRelationalOps_char n, totalRelationalOpsList_eq_sum]
  · rw [totalJoins_char n, totalJoinsList_eq_sum]

/-- A member's relational-op total is bounded by the accumulated total. -/
theorem totalRelationalOps_le_list :
    ∀ l : NodeList, ∀ c ∈ l.toList, totalRelationalOps c ≤ totalRelationalOpsList l
  | NodeList.nil => by intro c hc; simp [NodeList.toList] at hc
  | NodeList.cons h t => by
      intro c hc
      rw [NodeList.toList_cons] at hc
      rcases List.mem_cons.mp hc with hch | hct
      · subst hch; exact Nat.le_add_right _ _ |>.trans_eq rfl
      · exact le_trans (totalRelationalOps_le_list t c hct) (Nat.le_add_left _ _)

/-- A member's join total is bounded by the accumulated total. -/
theorem totalJoins_le_list :
    ∀ l : NodeList, ∀ c ∈ l.toList, totalJoins c ≤ totalJoinsList l
  | NodeList.nil => by intro c hc; simp [NodeList.toList] at hc
  | NodeList.cons h t => by
      intro c hc
      rw [NodeList.toList_cons] at hc
      rcases List.mem_cons.mp hc with hch | hct
      · subst hch; exact Nat.le_add_right _ _
      · exact le_trans (totalJoins_le_list t c hct) (Nat.le_add_left _ _)

/-- When the accumulated variable count is defined, each member's count is
defined and bounded by it. -/
theorem totalVariables_le_list :
    ∀ l : NodeList, ∀ s, totalVariablesList l = some s →
      ∀ c ∈ l.toList, ∃ vc, totalVariables c = some vc ∧ vc ≤ s
  | NodeList.nil => by intro s _ c hc; simp [NodeList.toList] at hc
  | NodeList.cons h t => by
      intro s hs c hc
      rw [NodeList.toList_cons] at hc
      unfold totalVariablesList tvCons at hs
      cases hh : totalVariables h with
      | none => rw [hh] at hs; simp [Option.bind] at hs
      | some a =>
          rw [hh] at hs
          cases ht : totalVariablesList t with
          | none => rw [ht] at hs; simp [Option.bind, Option.map] at hs
          | some b =>
              rw [ht] at hs
              simp [Option.bind, Option.map] at hs
              rcases List.mem_cons.mp hc with hch | hct
              · exact ⟨a, by rw [hch, hh], by omega⟩
              · rcases totalVariables_le_list t b ht c hct with ⟨vc, hvc, hle⟩
                exact ⟨vc, hvc, by omega⟩

/-- C8: wrapping a node in any parent never decreases the cost metrics —
for every node `w` and every direct child `c` of `w`, the child's
`total_relational_ops` and `total_joins` are at most the parent's, a
defined parent `total_variables` bounds a defined child count, and a
defined parent `planning_complexity` bounds a defined child complexity
(every variant's `variables_introduced`, `relation_ops_created` and join
contributions are non-negative counts). -/
theorem c8_wrapping_monotone (w c : Node) (hmem : c ∈ (childrenNL w).toList) :
    totalRelationalOps c ≤ totalRelationalOps w
    ∧ totalJoins c ≤ totalJoins w
    ∧ (∀ vw, totalVariables w = some vw →
        ∃ vc, totalVariables c = some vc ∧ vc ≤ vw)
    ∧ (∀ pw, planningComplexity w = some pw →
        ∃ pc, planningComplexity c = some pc ∧ pc ≤ pw) := by
  have htro : totalRelationalOps c ≤ totalRelationalOps w := by
    rw [totalRelationalOps_char w]
    exact le_trans (totalRelationalOps_le_list _ c hmem) (Nat.le_add_left _ _)
  have htj : totalJoins c ≤ totalJoins w := by
    rw [totalJoins_char w]
    exact le_trans (totalJoins_le_list _ c hmem) (Nat.le_add_left _ _)
  have htv : ∀ vw, totalVariables w = some vw →
      ∃ vc, totalVariables c = some vc ∧ vc ≤ vw := by
    intro vw hvw
    rw [totalVariables_char w] at hvw
    unfold tvStep at hvw
    cases hvi : variablesIntroduced w with
    | none => rw [hvi] at hvw; simp [Option.bind] at hvw
    | some vi =>
        rw [hvi] at hvw
        cases hls : totalVariablesList (childrenNL w) with
        | none => rw [hls] at hvw; simp [Option.bind, Option.map] at hvw
        | some s =>
            rw [hls] at hvw
            simp [Option.bind, Option.map] at hvw
            rcases totalVariables_le_list _ s hls c hmem with ⟨vc, hvc, hle⟩
            exact ⟨vc, hvc, by omega⟩
  refine ⟨htro, htj, htv, ?_⟩
  intro pw hpw
  unfold planningComplexity at hpw
  cases hvw : totalVariables w with
  | none => rw [hvw] at hpw; simp [Option.map] at hpw
  | some vw =>
      rw [hvw] at hpw
      simp [Option.map] at hpw
      rcases htv vw hvw with ⟨vc, hvc, hlev⟩
      refine ⟨vc * totalRelationalOps c * (1 + totalJoins c), ?_, ?_⟩
      · unfold planningComplexity
        rw [hvc]
        rfl
      · rw [← hpw]
        exact Nat.mul_le_mul (Nat.mul_le_mul hlev htro) (Nat.add_le_add_left htj 1)

/-- C8 witness: the wrapping `Filter` over the example table read, with the
concrete totals `total_variables exFilter = 3` and
`planning_complexity exFilter = 12`. -/
theorem c8_wrapping_monotone_witness :
    totalRelationalOps exReadTable ≤ totalRelationalOps exFilter
    ∧ totalJoins exReadTable ≤ totalJoins exFilter
    ∧ (∃ vc, totalVariables exReadTable = some vc ∧ vc ≤ 3)
    ∧ (∃ pc, planningComplexity exReadTable = some pc ∧ pc ≤ 12) := by
  have h := c8_wrapping_monotone exFilter exReadTable (by decide)
  exact ⟨h.1, h.2.1, h.2.2.1 3 rfl, h.2.2.2 12 rfl⟩

/-- The integer-hash collision behind the C3 counterexample: CPython's
documented int hash sends both `-1` and `-2` to `-2`. -/
theorem pyIntHash_neg_one_eq_neg_two : pyIntHash (-1) = pyIntHash (-2) := by decide

/-- The structural hash cannot separate two trees that differ only in an
integer constant whose CPython hashes collide, for every atom-hash
environment: the two filter predicates `offset-constant -1` and `-2`
produce identical root hashes. -/
theorem nodeHash_int_collision (env : HashEnv) :
    nodeHash env (Node.filter exLeaf (Expr.const (-1))) =
      nodeHash env (Node.filter exLeaf (Expr.const (-2))) := by
  show hashFields [nodeHash env exLeaf, exprHash env (Expr.const (-1))] =
    hashFields [nodeHash env exLeaf, exprHash env (Expr.const (-2))]
  have hc : exprHash env (Expr.const (-1)) = exprHash env (Expr.const (-2)) := by
    show dcHash [pyIntHash (-1)] = dcHash [pyIntHash (-2)]
    rw [pyIntHash_neg_one_eq_neg_two]
  rw [hc]

/-- C3 counterexample: changing the single `predicate` field of a
`FilterNode` from the constant `-1` to the constant `-2` yields a different
tree with an unchanged root structural hash (CPython hashes `-1` and `-2`
identically), so a single-field change does not always change the root
hash.  Evaluated in the concrete reference hash environment. -/
theorem c3_single_field_collision_counterexample :
    Node.filter exLeaf (Expr.const (-1)) ≠ Node.filter exLeaf (Expr.const (-2))
    ∧ nodeHash defaultHashEnv (Node.filter exLeaf (Expr.const (-1))) =
      nodeHash defaultHashEnv (Node.filter exLeaf (Expr.const (-2))) := by
  exact ⟨by decide, nodeHash_int_collision defaultHashEnv⟩

/-- C3 (amended): two trees with identical variant sequence and identical
parameters at every node compare equal and have equal structural hashes
(for every atom-hash environment); a single-field change generically
changes the root hash but is not guaranteed to, since Python's integer
hashing collides (for example on the constants `-1` and `-2`). -/
theorem c3_structural_hash_amended (env : HashEnv) (a b : Node)
    (h : structIdentical a b = true) :
    a = b ∧ nodeHash env a = nodeHash env b := by
  have hab : a = b := of_decide_eq_true h
  exact ⟨hab, by rw [hab]⟩

/-- A second, separately written copy of the `Filter` chain used to witness
the amended C3 theorem on two structurally identical trees. -/
def exFilterCopy : Node :=
  Node.filter
    (Node.readTable "project" "dataset" "table" [BqField.mk "k" "INTEGER"]
      [SchemaItem.mk "k" Dtype.int64] 1 [] false none none)
    (Expr.freeVar "k")

/-- C3 witness: the two separately constructed identical trees are equal
and hash-equal in the concrete reference hash environment. -/
theorem c3_structural_hash_amended_witness :
    exFilter = exFilterCopy
    ∧ nodeHash defaultHashEnv exFilter = nodeHash defaultHashEnv exFilterCopy :=
  c3_structural_hash_amended defaultHashEnv exFilter exFilterCopy (by decide)

/-- Example table read owned by session 1. -/
def exSessionTable1 : Node :=
  Node.readTable "project" "dataset" "table_one" [BqField.mk "a" "INTEGER"]
    [SchemaItem.mk "a" Dtype.int64] 1 [] false none none

/-- Example table read owned by session 2. -/
def exSessionTable2 : Node :=
  Node.readTable "project" "dataset" "table_two" [BqField.mk "a" "INTEGER"]
    [SchemaItem.mk "a" Dtype.int64] 2 [] false none none

/-- Example join definition mapping column `a` from the left side. -/
def exJoinDef : JoinDefinition :=
  JoinDefinition.mk "inner" [JoinColumnMapping.mk JoinSide.left "a" "a_l"]

/-- C6 counterexample: a tree combining leaves from two different sessions
passes every construction-time validation (so it can be constructed), and
only evaluating the `session` property raises the fatal error; the
violation is therefore not detected at construction time. -/
theorem c6_lazy_session_check_counterexample :
    treeChecks (Node.join exSessionTable1 exSessionTable2 exJoinDef) = Except.ok ()
    ∧ sessionOf (Node.join exSessionTable1 exSessionTable2 exJoinDef) =
      Except.error ("Cannot use combine sources from multiple sessions.") := by
  exact ⟨rfl, rfl⟩

/-- C6 (amended): collecting owning sessions transitively from descendants
yields none when zero distinct sessions are found, that session when
exactly one distinct session is found, and a fatal error when more than
one distinct session is found — but the error is raised lazily when the
`session` property is evaluated, not at construction: a tree combining
leaves of two sessions passes every construction-time check. -/
theorem c6_session_resolution_amended :
    (∀ ss : List (Option Nat), List.filterMap id ss = [] →
      resolveSessions ss = Except.ok none)
    ∧ (∀ (ss : List (Option Nat)) (s : Nat), (List.filterMap id ss).dedup = [s] →
      resolveSessions ss = Except.ok (some s))
    ∧ (∀ ss : List (Option Nat), 1 < (List.filterMap id ss).dedup.length →
      resolveSessions ss =
        Except.error ("Cannot use combine sources from multiple sessions."))
    ∧ (∀ l r jd sl sr, sessionOf l = Except.ok sl → sessionOf r = Except.ok sr →
      sessionOf (Node.join l r jd) = resolveSessions [sl, sr])
    ∧ (∀ l r jd, treeChecks l = Except.ok () → treeChecks r = Except.ok () →
      treeChecks (Node.join l r jd) = Except.ok ()) := by
  refine ⟨?_, ?_, ?_, ?_, ?_⟩
  · intro ss h
    unfold resolveSessions
    rw [h]
    rfl
  · intro ss s h
    unfold resolveSessions
    rcases hcase : List.filterMap id ss with _ | ⟨x, rest⟩
    · rw [hcase] at h
      simp [List.dedup_nil] at h
    · have hx : x ∈ (List.filterMap id ss).dedup := by
        rw [List.mem_dedup, hcase]
        exact List.mem_cons_self x rest
      rw [h] at hx
      have hxs : x = s := by simpa using hx
      rw [hcase, hxs] at h
      simp [h, hxs]
  · intro ss h
    unfold resolveSessions
    simp only []
    rw [if_pos h]
  · intro l r jd sl sr hl hr
    show Except.bind (sessionOf l) (fun a =>
      Except.bind (sessionOf r) (fun b => resolveSessions [a, b])) = resolveSessions [sl, sr]
    rw [hl, hr]
    rfl
  · intro l r jd hl hr
    show Except.bind (treeChecks l) (fun _ => treeChecks r) = Except.ok ()
    rw [hl, hr]
    rfl

/-- C6 witness: the resolution rules and the constructibility of a
mixed-session join, applied to concrete inputs — no sessions resolve to
none, the single distinct session 7 resolves to itself, two distinct
sessions resolve to the fatal error, the example join resolves its
children's sessions, and the mixed-session join passes construction. -/
theorem c6_session_resolution_amended_witness :
    resolveSessions [none, none] = Except.ok none
    ∧ resolveSessions [some 7, none, some 7] = Except.ok (some 7)
    ∧ resolveSessions [some 1, some 2] =
        Except.error ("Cannot use combine sources from multiple sessions.")
    ∧ sessionOf (Node.join exSessionTable1 exSessionTable2 exJoinDef) =
        resolveSessions [some 1, some 2]
    ∧ treeChecks (Node.join exSessionTable1 exSessionTable2 exJoinDef) = Except.ok () := by
  refine ⟨c6_session_resolution_amended.1 [none, none] rfl,
    c6_session_resolution_amended.2.1 [some 7, none, some 7] 7 (by decide),
    c6_session_resolution_amended.2.2.1 [some 1, some 2] (by decide),
    c6_session_resolution_amended.2.2.2.1 exSessionTable1 exSessionTable2 exJoinDef
      (some 1) (some 2) rfl rfl,
    c6_session_resolution_amended.2.2.2.2 exSessionTable1 exSessionTable2 exJoinDef rfl rfl⟩

/-- Members of a successful `Option`-monadic traversal: every input element
maps to some output element of the result. -/
theorem mapMOptionMem {α β : Type} (f : α → Option β) :
    ∀ (xs : List α) (ys : List β), List.mapM f xs = some ys →
      ∀ x ∈ xs, ∃ y, f x = some y ∧ y ∈ ys := by
  intro xs
  induction xs with
  | nil => intro ys _ x hx; simp at hx
  | cons h t ih =>
      intro ys hmap x hx
      rw [List.mapM_cons] at hmap
      cases hh : f h with
      | none => rw [hh] at hmap; simp [bind, pure] at hmap
      | some b =>
          rw [hh] at hmap
          cases ht : List.mapM f t with
          | none => rw [ht] at hmap; simp [bind, pure] at hmap
          | some bs =>
              rw [ht] at hmap
              simp [bind, pure] at hmap
              rcases List.mem_cons.mp hx with hxh | hxt
              · exact ⟨b, by rw [hxh, hh], by rw [← hmap]; exact List.mem_cons_self b bs⟩
              · rcases ih bs ht x hxt with ⟨y, hy, hymem⟩
                exact ⟨y, hy, by rw [← hmap]; exact List.mem_cons_of_mem b hymem⟩

/-- A list containing two distinct elements has at least two distinct
values: its dedup is longer than one. -/
theorem one_lt_dedup_length {α : Type} [DecidableEq α] {l : List α} {a b : α}
    (ha : a ∈ l) (hb : b ∈ l) (hab : a ≠ b) : 1 < l.dedup.length := by
  have ha2 : a ∈ l.dedup := List.mem_dedup.mpr ha
  have hb2 : b ∈ l.dedup := List.mem_dedup.mpr hb
  rcases hd : l.dedup with _ | ⟨x, rest⟩
  · rw [hd] at ha2; simp at ha2
  · rcases rest with _ | ⟨y, rest2⟩
    · rw [hd] at ha2 hb2
      simp at ha2 hb2
      exact absurd (ha2.trans hb2.symm) hab
    · simp

/-- Mapping the success value does not change whether a result is an error. -/
theorem isErr_map {ε α β : Type} (f : α → β) (e : Except ε α) :
    isErr (Except.map f e) = isErr e := by
  cases e <;> rfl

/-- C5: all fatal construction errors are raised at node construction (the
smart constructor returns an error and no node is produced): a `Concat`
with zero children, a `Concat` with children whose positional dtype
sequences differ, an `OrderBy` whose sort expressions reference a variable
absent from the child's schema, a `ReadTable` whose requested logical
columns are not a subset of the physical column names or whose
sequential-order flag is set while the number of total-order columns is not
exactly one, and a `CachedTable` whose logical or hidden ordering columns
are not a subset of its physical schema. -/
theorem c5_construction_errors :
    (isErr (mkConcat NodeList.nil) = true)
    ∧ (∀ (cs : NodeList) (c1 c2 : Node) (s1 s2 : ArraySchema),
        c1 ∈ cs.toList → c2 ∈ cs.toList →
        schemaOf c1 = some s1 → schemaOf c2 = some s2 →
        s1.dtypes ≠ s2.dtypes → isErr (mkConcat cs) = true)
    ∧ (∀ (child : Node) (sortBy : List OrderingExpression) (oe : OrderingExpression)
        (v : String) (s : ArraySchema), oe ∈ sortBy →
        v ∈ oe.scalarExpression.unboundVariables →
        schemaOf child = some s → v ∉ s.names →
        isErr (mkOrderBy child sortBy) = true)
    ∧ (∀ pid did tid phys cols ts tocols seq atTime sqlPred c, c ∈ ArraySchema.names cols →
        c ∉ List.map BqField.name phys →
        isErr (mkReadTable pid did tid phys cols ts tocols seq atTime sqlPred) = true)
    ∧ (∀ pid did tid phys cols ts tocols atTime sqlPred, tocols.length ≠ 1 →
        isErr (mkReadTable pid did tid phys cols ts tocols true atTime sqlPred) = true)
    ∧ (∀ orig pid did tid phys ordering s c, schemaOf orig = some s →
        c ∈ ArraySchema.names s → c ∉ List.map BqField.name phys →
        isErr (mkCachedTable orig pid did tid phys ordering) = true)
    ∧ (∀ orig pid did tid phys ordering s c, schemaOf orig = some s →
        c ∈ hiddenColumns s ordering → c ∉ List.map BqField.name phys →
        isErr (mkCachedTable orig pid did tid phys ordering) = true) := by
  refine ⟨rfl, ?_, ?_, ?_, ?_, ?_, ?_⟩
  · intro cs c1 c2 s1 s2 h1 h2 hs1 hs2 hne
    unfold mkConcat
    rw [isErr_map]
    unfold concatChecks
    have hne0 : ¬(cs.toList.length = 0) := by
      intro h0
      rw [List.length_eq_zero] at h0
      rw [h0] at h1
      simp at h1
    rw [if_neg hne0]
    cases hm : List.mapM (fun c => Option.map ArraySchema.dtypes (schemaOf c)) cs.toList with
    | none => rfl
    | some childSchemas =>
        have e1 : s1.dtypes ∈ childSchemas := by
          rcases mapMOptionMem _ cs.toList childSchemas hm c1 h1 with ⟨y, hy, hymem⟩
          rw [hs1] at hy
          simp [Option.map] at hy
          rw [hy]
          exact hymem
        have e2 : s2.dtypes ∈ childSchemas := by
          rcases mapMOptionMem _ cs.toList childSchemas hm c2 h2 with ⟨y, hy, hymem⟩
          rw [hs2] at hy
          simp [Option.map] at hy
          rw [hy]
          exact hymem
        have hlen := one_lt_dedup_length e1 e2 hne
        have hlen1 : ¬(childSchemas.dedup.length = 1) := by omega
        show isErr (if childSchemas.dedup.length = 1 then (Except.ok () : Except String Unit)
          else Except.error ("All inputs must have identical dtypes.")) = true
        rw [if_neg hlen1]
        rfl
  · intro child sortBy oe v s hoe hv hs hvnot
    unfold mkOrderBy
    rw [isErr_map]
    unfold orderByChecks
    rw [hs]
    cases hall : List.all sortBy
        (fun oe => List.all oe.scalarExpression.unboundVariables
          (fun v => decide (v ∈ s.names))) with
    | false => simp [hall, isErr]
    | true =>
        exfalso
        rw [List.all_eq_true] at hall
        have h2 := hall oe hoe
        rw [List.all_eq_true] at h2
        exact hvnot (of_decide_eq_true (h2 v hv))
  · intro pid did tid phys cols ts tocols seq atTime sqlPred c hc hcphys
    unfold mkReadTable
    rw [isErr_map]
    unfold readTableChecks
    cases hall : List.all cols.names (fun n => decide (n ∈ List.map BqField.name phys)) with
    | false => simp only [hall]; rfl
    | true =>
        exfalso
        rw [List.all_eq_true] at hall
        exact hcphys (of_decide_eq_true (hall c hc))
  · intro pid did tid phys cols ts tocols atTime sqlPred hlen
    unfold mkReadTable
    rw [isErr_map]
    unfold readTableChecks
    have hd : decide (tocols.length = 1) = false := by simp [hlen]
    cases hall : List.all cols.names (fun n => decide (n ∈ List.map BqField.name phys)) with
    | false => simp only [hall]; rfl
    | true => simp only [hall, hd]; rfl
  · intro orig pid did tid phys ordering s c hs hc hcphys
    unfold mkCachedTable
    rw [isErr_map]
    unfold cachedTableChecks
    rw [hs]
    cases hall : List.all s.names (fun n => decide (n ∈ List.map BqField.name phys)) with
    | false => simp only [hall]; rfl
    | true =>
        exfalso
        rw [List.all_eq_true] at hall
        exact hcphys (of_decide_eq_true (hall c hc))
  · intro orig pid did tid phys ordering s c hs hc hcphys
    unfold mkCachedTable
    rw [isErr_map]
    unfold cachedTableChecks
    rw [hs]
    cases hall : List.all s.names (fun n => decide (n ∈ List.map BqField.name phys)) with
    | false => simp only [hall]; rfl
    | true =>
        cases hall2 : List.all (hiddenColumns s ordering)
            (fun n => decide (n ∈ List.map BqField.name phys)) with
        | false => simp only [hall, hall2]; rfl
        | true =>
            exfalso
            rw [List.all_eq_true] at hall2
            exact hcphys (of_decide_eq_true (hall2 c hc))

/-- C5 witness: each construction-error family fires on a concrete input —
an empty concat, a concat of an empty-schema leaf with a one-column table
read, an order-by on an unknown id `z`, a table read requesting column `b`
against a physical schema with only `a`, a sequential-order flag with zero
order columns, a cached table whose logical column `k` is physically
absent, and a cached table whose hidden ordering column `h` is physically
absent. -/
theorem c5_construction_errors_witness :
    isErr (mkConcat NodeList.nil) = true
    ∧ isErr (mkConcat (NodeList.cons exLeaf (NodeList.cons exReadTable NodeList.nil))) = true
    ∧ isErr (mkOrderBy exReadTable [OrderingExpression.mk (Expr.freeVar "z") true true]) = true
    ∧ isErr (mkReadTable "p" "d" "t" [BqField.mk "a" "INTEGER"] [SchemaItem.mk "b" Dtype.int64]
        1 [] false none none) = true
    ∧ isErr (mkReadTable "p" "d" "t" [BqField.mk "a" "INTEGER"] [SchemaItem.mk "a" Dtype.int64]
        1 [] true none none) = true
    ∧ isErr (mkCachedTable exReadTable "p" "d" "t" [] none) = true
    ∧ isErr (mkCachedTable exLeaf "p" "d" "t" []
        (some (RowOrdering.totalOrdering ["h"]))) = true := by
  refine ⟨c5_construction_errors.1, ?_, ?_, ?_, ?_, ?_, ?_⟩
  · exact c5_construction_errors.2.1
      (NodeList.cons exLeaf (NodeList.cons exReadTable NodeList.nil))
      exLeaf exReadTable [] [SchemaItem.mk "k" Dtype.int64]
      (by decide) (by decide) rfl rfl (by decide)
  · exact c5_construction_errors.2.2.1 exReadTable
      [OrderingExpression.mk (Expr.freeVar "z") true true]
      (OrderingExpression.mk (Expr.freeVar "z") true true) "z" [SchemaItem.mk "k" Dtype.int64]
      (by decide) (by decide) rfl (by decide)
  · exact c5_construction_errors.2.2.2.1 "p" "d" "t" [BqField.mk "a" "INTEGER"]
      [SchemaItem.mk "b" Dtype.int64] 1 [] false none none "b" (by decide) (by decide)
  · exact c5_construction_errors.2.2.2.2.1 "p" "d" "t" [BqField.mk "a" "INTEGER"]
      [SchemaItem.mk "a" Dtype.int64] 1 [] none none (by decide)
  · exact c5_construction_errors.2.2.2.2.2.1 exReadTable "p" "d" "t" [] none
      [SchemaItem.mk "k" Dtype.int64] "k" rfl (by decide) (by decide)
  · exact c5_construction_errors.2.2.2.2.2.2 exLeaf "p" "d" "t" []
      (some (RowOrdering.totalOrdering ["h"])) [] "h" rfl (by decide) (by decide)

/-- The renamed concat output has one item per dtype of the first child. -/
theorem concatItems_length : ∀ (k : Nat) (ds : List Dtype),
    (concatItems k ds).length = ds.length
  | _, [] => rfl
  | k, _ :: ds => by simp [concatItems, concatItems_length (k + 1) ds]

/-- Pointwise description of the renamed concat output starting at index
`k`: position `i` holds the `i`-th dtype under the name `column_(k+i)`. -/
theorem concatItems_getElem? : ∀ (k : Nat) (ds : List Dtype) (i : Nat),
    (concatItems k ds)[i]? =
      Option.map (fun d => SchemaItem.mk ("column_" ++ toString (k + i)) d) ds[i]?
  | _, [], i => by simp [concatItems]
  | k, d :: ds, 0 => by simp [concatItems]
  | k, d :: ds, i + 1 => by
      have ih := concatItems_getElem? (k + 1) ds i
      simp only [concatItems, List.getElem?_cons_succ, ih]
      rw [show k + 1 + i = k + (i + 1) from by omega]

/-- C10: a successfully constructed `Concat` discards the children's column
names — its schema is the first child's dtype sequence renamed positionally,
with exactly as many columns as the first child and column `i` named
`column_i` carrying the first child's `i`-th dtype (the children's own
names never appear). -/
theorem c10_concat_schema (cs : NodeList) (nd : Node) (c : Node) (t : NodeList)
    (s0 : ArraySchema) (hmk : mkConcat cs = Except.ok nd) (hcs : cs = NodeList.cons c t)
    (hs0 : schemaOf c = some s0) :
    nd = Node.concat cs
    ∧ schemaOf nd = some (concatItems 0 s0.dtypes)
    ∧ (concatItems 0 s0.dtypes).length = s0.length
    ∧ (∀ i : Nat, (concatItems 0 s0.dtypes)[i]? =
        Option.map (fun d => SchemaItem.mk ("column_" ++ toString i) d) s0.dtypes[i]?) := by
  have hnd : nd = Node.concat cs := by
    unfold mkConcat at hmk
    cases hck : concatChecks cs with
    | error e => rw [hck] at hmk; simp [Except.map] at hmk
    | ok u => rw [hck] at hmk; simp [Except.map] at hmk; exact hmk.symm
  refine ⟨hnd, ?_, ?_, ?_⟩
  · rw [hnd, hcs]
    show Option.map (fun s => concatItems 0 s.dtypes) (schemaOf c) = _
    rw [hs0]
    rfl
  · rw [concatItems_length]
    exact List.length_map s0 SchemaItem.dtype
  · intro i
    have h := concatItems_getElem? 0 s0.dtypes i
    rw [Nat.zero_add] at h
    exact h

/-- C10 witness: the one-child concat over the example table read (whose
only column is named `k`) has the single output column `column_0` with the
child's dtype. -/
theorem c10_concat_schema_witness :
    schemaOf (Node.concat (NodeList.cons exReadTable NodeList.nil)) =
      some [SchemaItem.mk "column_0" Dtype.int64]
    ∧ ([SchemaItem.mk "column_0" Dtype.int64] : ArraySchema).length =
      ([SchemaItem.mk "k" Dtype.int64] : ArraySchema).length := by
  have h := c10_concat_schema (NodeList.cons exReadTable NodeList.nil)
    (Node.concat (NodeList.cons exReadTable NodeList.nil)) exReadTable NodeList.nil
    [SchemaItem.mk "k" Dtype.int64] rfl rfl rfl
  exact ⟨h.2.1, h.2.2.1⟩

/-- The factoring loop never performs more materializations than its fuel. -/
theorem simplifyLoop_count_le {α : Type} (env : SimplifyEnv α) :
    ∀ (fuel : Nat) (st : α), (simplifyLoop env fuel st).2.2 ≤ fuel
  | 0, st => Nat.le_refl 0
  | fuel + 1, st => by
      unfold simplifyLoop
      by_cases h : env.optComplexity st < QUERY_COMPLEXITY_LIMIT
      · rw [if_pos h]; exact Nat.zero_le _
      · rw [if_neg h]
        cases hc : cacheMostComplexSubtree env st with
        | none => exact Nat.zero_le _
        | some st2 =>
            have ih := simplifyLoop_count_le env fuel st2
            simpa using Nat.add_le_add_right ih 1

/-- When the complexity never falls below the ceiling and a cache target
always qualifies, the loop uses its full fuel and stops by budget
exhaustion — returning normally rather than failing. -/
theorem simplifyLoop_exhausts {α : Type} (env : SimplifyEnv α)
    (hover : ∀ s2 : α, ¬ env.optComplexity s2 < QUERY_COMPLEXITY_LIMIT)
    (hsel : ∀ s2 : α, (cacheMostComplexSubtree env s2).isSome = true) :
    ∀ (fuel : Nat) (st : α),
      (simplifyLoop env fuel st).2.1 = SimplifyStop.budgetExhausted
      ∧ (simplifyLoop env fuel st).2.2 = fuel
  | 0, st => ⟨rfl, rfl⟩
  | fuel + 1, st => by
      unfold simplifyLoop
      rw [if_neg (hover st)]
      cases hc : cacheMostComplexSubtree env st with
      | none =>
          have hcontra := hsel st
          rw [hc] at hcontra
          simp at hcontra
      | some st2 =>
          have ih := simplifyLoop_exhausts env hover hsel fuel st2
          simpa using ih

/-- C7: the complexity-bounded factoring loop terminates within the fixed
iteration budget `MAX_SUBTREE_FACTORINGS = 5` regardless of tree shape (it
is universally quantified over the cache environment): each iteration stops
when the cache-optimized plan's complexity is below the ceiling or when no
cache-target subtree qualifies between `QUERY_COMPLEXITY_LIMIT / 500` and
`QUERY_COMPLEXITY_LIMIT`; and when the budget is exhausted while every
state stays over the ceiling, the loop still returns normally after exactly
5 materializations. -/
theorem c7_factoring_budget {α : Type} (env : SimplifyEnv α) (st : α) :
    (simplifyWithCaching env st).2.2 ≤ MAX_SUBTREE_FACTORINGS
    ∧ MAX_SUBTREE_FACTORINGS = 5
    ∧ QUERY_COMPLEXITY_LIMIT / 500 = 20000
    ∧ QUERY_COMPLEXITY_LIMIT = 10000000
    ∧ (∀ s2 : α, cacheMostComplexSubtree env s2 =
        Option.map (fun sel => env.cacheStep sel s2)
          (env.selectCacheTarget (QUERY_COMPLEXITY_LIMIT / 500) QUERY_COMPLEXITY_LIMIT s2))
    ∧ (env.optComplexity st < QUERY_COMPLEXITY_LIMIT →
        simplifyWithCaching env st = (st, SimplifyStop.belowLimit, 0))
    ∧ (¬ env.optComplexity st < QUERY_COMPLEXITY_LIMIT →
        env.selectCacheTarget (QUERY_COMPLEXITY_LIMIT / 500) QUERY_COMPLEXITY_LIMIT st = none →
        simplifyWithCaching env st = (st, SimplifyStop.noTarget, 0))
    ∧ ((∀ s2 : α, ¬ env.optComplexity s2 < QUERY_COMPLEXITY_LIMIT) →
        (∀ s2 : α, (cacheMostComplexSubtree env s2).isSome = true) →
        (simplifyWithCaching env st).2.1 = SimplifyStop.budgetExhausted
        ∧ (simplifyWithCaching env st).2.2 = MAX_SUBTREE_FACTORINGS) := by
  refine ⟨simplifyLoop_count_le env MAX_SUBTREE_FACTORINGS st, rfl, rfl, rfl, ?_, ?_, ?_, ?_⟩
  · intro s2
    unfold cacheMostComplexSubtree
    cases env.selectCacheTarget (QUERY_COMPLEXITY_LIMIT / 500) QUERY_COMPLEXITY_LIMIT s2 <;> rfl
  · intro h
    unfold simplifyWithCaching MAX_SUBTREE_FACTORINGS simplifyLoop
    rw [if_pos h]
  · intro h hsel
    unfold simplifyWithCaching MAX_SUBTREE_FACTORINGS simplifyLoop
    rw [if_neg h]
    unfold cacheMostComplexSubtree
    rw [hsel]
  · intro hover hsel
    exact simplifyLoop_exhausts env hover hsel MAX_SUBTREE_FACTORINGS st

/-- Environment in which every state is over the ceiling and a cache target
always qualifies (cache states are bare counters). -/
def envOverCeiling : SimplifyEnv Nat where
  optComplexity _ := QUERY_COMPLEXITY_LIMIT
  selectCacheTarget _ _ _ := some exLeaf
  cacheStep _ s := s + 1

/-- Environment in which the starting state is already below the ceiling. -/
def envBelowCeiling : SimplifyEnv Nat where
  optComplexity _ := 0
  selectCacheTarget _ _ _ := some exLeaf
  cacheStep _ s := s + 1

/-- Environment in which no cache-target subtree ever qualifies. -/
def envNoTarget : SimplifyEnv Nat where
  optComplexity _ := QUERY_COMPLEXITY_LIMIT
  selectCacheTarget _ _ _ := none
  cacheStep _ s := s + 1

/-- C7 witness: on concrete environments the loop stops immediately below
the ceiling, stops without mitigation when no target qualifies, and runs
exactly 5 materializations before proceeding when permanently over the
ceiling. -/
theorem c7_factoring_budget_witness :
    (simplifyWithCaching envOverCeiling 0).2.2 ≤ MAX_SUBTREE_FACTORINGS
    ∧ (simplifyWithCaching envOverCeiling 0).2.1 = SimplifyStop.budgetExhausted
    ∧ (simplifyWithCaching envOverCeiling 0).2.2 = MAX_SUBTREE_FACTORINGS
    ∧ simplifyWithCaching envBelowCeiling 0 = (0, SimplifyStop.belowLimit, 0)
    ∧ simplifyWithCaching envNoTarget 0 = (0, SimplifyStop.noTarget, 0) := by
  have hover : ∀ s2 : Nat, ¬ envOverCeiling.optComplexity s2 < QUERY_COMPLEXITY_LIMIT :=
    fun s2 => by simp [envOverCeiling]
  have hsel : ∀ s2 : Nat, (cacheMostComplexSubtree envOverCeiling s2).isSome = true :=
    fun s2 => rfl
  have hex := (c7_factoring_budget envOverCeiling 0).2.2.2.2.2.2.2 hover hsel
  refine ⟨(c7_factoring_budget envOverCeiling 0).1, hex.1, hex.2, ?_, ?_⟩
  · exact (c7_factoring_budget envBelowCeiling 0).2.2.2.2.2.1 (by decide)
  · exact (c7_factoring_budget envNoTarget 0).2.2.2.2.2.2.1 (by decide) rfl

/-- Name lookup skips a prepended item with a different name. -/
theorem getType_cons_ne (x : SchemaItem) (s : ArraySchema) (nm : String)
    (h : ¬ x.name = nm) :
    ArraySchema.getType (x :: s) nm = ArraySchema.getType s nm := by
  have hb : (x.name == nm) = false := by simp [h]
  simp [ArraySchema.getType, List.find?, hb]

/-- Over a schema with pairwise distinct names, looking an item's own name
up returns its dtype. -/
theorem getType_self_of_nodup :
    ∀ s : ArraySchema, (ArraySchema.names s).Nodup →
      ∀ it ∈ s, ArraySchema.getType s it.name = some it.dtype
  | [], _, it, hit => by simp at hit
  | x :: rest, hnd, it, hit => by
      have hnd2 : (x.name :: ArraySchema.names rest).Nodup := hnd
      rcases List.mem_cons.mp hit with h | h
      · subst h
        simp [ArraySchema.getType, List.find?]
      · have hmem : it.name ∈ ArraySchema.names rest :=
          List.mem_map_of_mem SchemaItem.name h
        have hx : ¬ x.name = it.name := by
          intro he
          exact (List.nodup_cons.mp hnd2).1 (he ▸ hmem)
        rw [getType_cons_ne x rest it.name hx]
        exact getType_self_of_nodup rest (List.nodup_cons.mp hnd2).2 it h

/-- A selection that keeps every column of `part` under its own name, typed
against any schema `full` that answers each lookup with `part`'s dtype,
reproduces exactly `part`. -/
theorem selection_restores (full : ArraySchema) :
    ∀ part : ArraySchema,
      (∀ it ∈ part, ArraySchema.getType full it.name = some it.dtype) →
      List.mapM
        (fun (p : String × String) =>
          Option.map (fun d => SchemaItem.mk p.2 d) (ArraySchema.getType full p.1))
        (List.map (fun i => (i, i)) (ArraySchema.names part)) = some part
  | [], _ => rfl
  | it :: rest, h => by
      show List.mapM _ ((it.name, it.name) :: List.map (fun i => (i, i)) (ArraySchema.names rest))
        = some (it :: rest)
      rw [List.mapM_cons]
      have hit := h it (List.mem_cons_self it rest)
      have hrest := selection_restores full rest (fun x hx => h x (List.mem_cons_of_mem it hx))
      simp only [hit, hrest, Option.map_some]
      simp [bind, pure]

/-- Tail dispatch of `head` in non-strict mode without explicit user
ordering: delegate to `peek`. -/
theorem headRest_peek (env : ExecEnv) (node : Node) (n : Nat)
    (h1 : env.strictlyOrdered = false) (h2 : env.explicitlyOrdered node = false) :
    headRest env node n = Except.ok (HeadAction.peekAt node n) := by
  unfold headRest
  rw [h1, h2]
  rfl

/-- Tail dispatch of `head` in strict mode or under explicit user ordering:
compile the derived head plan, passing through the offset-caching guard
exactly when a cheap bounded ordered read is not already supported. -/
theorem headRest_branch (env : ExecEnv) (node : Node) (n : Nat)
    (hcond : env.strictlyOrdered = true ∨ env.explicitlyOrdered node = true) :
    headRest env node n =
      (if env.canFastHead (env.optimize node) then
        Except.ok
          (HeadAction.runHeadPlan false (generateHeadPlan env.offsetsId (env.optimize node) n))
      else
        Except.bind (cacheWithOffsetsGuard env) (fun _ =>
          Except.ok (HeadAction.runHeadPlan true
            (generateHeadPlan env.offsetsId (env.optimizeAfterOffsetCache node) n)))) := by
  unfold headRest
  rcases hcond with h | h <;> rw [h] <;> simp

/-- C1: `head(n)` dispatches as the spec's cascade — a statically known row
count that is at most `n` yields a full ordered execution of the plan
as-is; otherwise, in non-strict mode without explicit user ordering it
delegates to `peek(n)`; otherwise, when the optimized plan cannot support a
cheap bounded ordered read, in strict mode it forces the offset-strategy
materialization and compiles the derived head plan over the re-optimized
tree, while in non-strict mode (reachable only with an explicitly ordered
plan) the forced `_cache_with_offsets` call raises its `ValueError` instead
of producing a derived plan; in the remaining case it compiles the derived
head plan over the optimized tree.  The derived plan injects an offset
column, filters `offset < n` and drops the offset column through a
selection, leaving exactly the original schema's columns (given the guid
column is fresh and the schema's ids are unique). -/
theorem c1_head_dispatch (env : ExecEnv) (node : Node) (n : Nat) :
    (∀ c, env.rowCountMeta (env.optimize node) = some c → c ≤ n →
      headDispatch env node n = Except.ok (HeadAction.executeOrdered node))
    ∧ ((∀ c, env.rowCountMeta (env.optimize node) = some c → n < c) →
        env.strictlyOrdered = false → env.explicitlyOrdered node = false →
        headDispatch env node n = Except.ok (HeadAction.peekAt node n))
    ∧ ((∀ c, env.rowCountMeta (env.optimize node) = some c → n < c) →
        env.strictlyOrdered = true →
        env.canFastHead (env.optimize node) = false →
        headDispatch env node n = Except.ok (HeadAction.runHeadPlan true
          (generateHeadPlan env.offsetsId (env.optimizeAfterOffsetCache node) n)))
    ∧ ((∀ c, env.rowCountMeta (env.optimize node) = some c → n < c) →
        (env.strictlyOrdered = true ∨ env.explicitlyOrdered node = true) →
        env.canFastHead (env.optimize node) = true →
        headDispatch env node n = Except.ok (HeadAction.runHeadPlan false
          (generateHeadPlan env.offsetsId (env.optimize node) n)))
    ∧ ((∀ c, env.rowCountMeta (env.optimize node) = some c → n < c) →
        env.strictlyOrdered = false → env.explicitlyOrdered node = true →
        env.canFastHead (env.optimize node) = false →
        headDispatch env node n =
          Except.error ("Caching with offsets only supported in strictly ordered mode."))
    ∧ (∀ (plan : Node) (s : ArraySchema), schemaOf plan = some s →
        env.offsetsId ∉ ArraySchema.names s → (ArraySchema.names s).Nodup →
        generateHeadPlan env.offsetsId plan n =
          some (Node.selection
            (Node.filter (Node.promoteOffsets plan env.offsetsId)
              (Expr.binOp "lt_op" (Expr.freeVar env.offsetsId) (Expr.const (n : Int))))
            (List.map (fun i => (i, i)) (ArraySchema.names s)))
        ∧ Option.bind (generateHeadPlan env.offsetsId plan n) schemaOf = some s) := by
  have hrest : ∀ hv : (∀ c, env.rowCountMeta (env.optimize node) = some c → n < c),
      headDispatch env node n = headRest env node n := by
    intro hv
    unfold headDispatch
    cases hrc : env.rowCountMeta (env.optimize node) with
    | none => rfl
    | some c =>
        have hlt := hv c hrc
        show (if c ≤ n then Except.ok (HeadAction.executeOrdered node) else headRest env node n)
          = headRest env node n
        rw [if_neg (by omega)]
  refine ⟨?_, ?_, ?_, ?_, ?_, ?_⟩
  · intro c hc hle
    unfold headDispatch
    rw [hc]
    show (if c ≤ n then Except.ok (HeadAction.executeOrdered node) else headRest env node n)
      = Except.ok (HeadAction.executeOrdered node)
    rw [if_pos hle]
  · intro hv h1 h2
    rw [hrest hv]
    exact headRest_peek env node n h1 h2
  · intro hv hstrict hfast
    rw [hrest hv, headRest_branch env node n (Or.inl hstrict), hfast]
    show Except.bind (cacheWithOffsetsGuard env) _ = _
    unfold cacheWithOffsetsGuard
    rw [hstrict]
    rfl
  · intro hv hcond hfast
    rw [hrest hv, headRest_branch env node n hcond, hfast]
    rfl
  · intro hv hstrict hexpl hfast
    rw [hrest hv, headRest_branch env node n (Or.inr hexpl), hfast]
    show Except.bind (cacheWithOffsetsGuard env) _ = _
    unfold cacheWithOffsetsGuard
    rw [hstrict]
    rfl
  · intro plan s hs hfresh hnodup
    have hplan : generateHeadPlan env.offsetsId plan n =
        some (Node.selection
          (Node.filter (Node.promoteOffsets plan env.offsetsId)
            (Expr.binOp "lt_op" (Expr.freeVar env.offsetsId) (Expr.const (n : Int))))
          (List.map (fun i => (i, i)) (ArraySchema.names s))) := by
      unfold generateHeadPlan
      rw [hs]
      rfl
    refine ⟨hplan, ?_⟩
    rw [hplan]
    show schemaOf (Node.selection
      (Node.filter (Node.promoteOffsets plan env.offsetsId)
        (Expr.binOp "lt_op" (Expr.freeVar env.offsetsId) (Expr.const (n : Int))))
      (List.map (fun i => (i, i)) (ArraySchema.names s))) = some s
    have hchild : schemaOf (Node.filter (Node.promoteOffsets plan env.offsetsId)
        (Expr.binOp "lt_op" (Expr.freeVar env.offsetsId) (Expr.const (n : Int)))) =
        some (SchemaItem.mk env.offsetsId INT_DTYPE :: s) := by
      show schemaOf (Node.promoteOffsets plan env.offsetsId) = _
      show Option.map (fun s2 =>
        ArraySchema.prependItem s2 (SchemaItem.mk env.offsetsId INT_DTYPE)) (schemaOf plan) = _
      rw [hs]
      rfl
    have hlook : ∀ it ∈ s,
        ArraySchema.getType (SchemaItem.mk env.offsetsId INT_DTYPE :: s) it.name =
          some it.dtype := by
      intro it hit
      have hne : ¬ (SchemaItem.mk env.offsetsId INT_DTYPE).name = it.name := by
        intro he
        apply hfresh
        have hmem : it.name ∈ ArraySchema.names s := List.mem_map_of_mem SchemaItem.name hit
        have he2 : env.offsetsId = it.name := he
        rw [he2]
        exact hmem
      rw [getType_cons_ne _ s it.name hne]
      exact getType_self_of_nodup s hnodup it hit
    calc schemaOf (Node.selection
        (Node.filter (Node.promoteOffsets plan env.offsetsId)
          (Expr.binOp "lt_op" (Expr.freeVar env.offsetsId) (Expr.const (n : Int))))
        (List.map (fun i => (i, i)) (ArraySchema.names s)))
        = List.mapM
            (fun (p : String × String) =>
              Option.map (fun d => SchemaItem.mk p.2 d)
                (ArraySchema.getType (SchemaItem.mk env.offsetsId INT_DTYPE :: s) p.1))
            (List.map (fun i => (i, i)) (ArraySchema.names s)) := by
          show (match schemaOf (Node.filter (Node.promoteOffsets plan env.offsetsId)
              (Expr.binOp "lt_op" (Expr.freeVar env.offsetsId) (Expr.const (n : Int)))) with
            | none => none
            | some s2 =>
                List.mapM
                  (fun (p : String × String) =>
                    Option.map (fun d => SchemaItem.mk p.2 d) (ArraySchema.getType s2 p.1))
                  (List.map (fun i => (i, i)) (ArraySchema.names s))) = _
          rw [hchild]
      _ = some s := selection_restores _ s hlook

/-- Concrete execution environment: strict ordering, identity cache
substitution, no static row count, fast head supported, no explicit user
ordering, and a concrete fresh guid column. -/
def exExecEnv : ExecEnv where
  strictlyOrdered := true
  optimize := id
  rowCountMeta _ := none
  canFastHead _ := true
  explicitlyOrdered _ := false
  optimizeAfterOffsetCache := id
  offsetsId := "bigframes_offsets_0"

/-- Concrete execution environment whose optimized plan carries a static
row count of 3. -/
def exExecEnvCounted : ExecEnv where
  strictlyOrdered := true
  optimize := id
  rowCountMeta _ := some 3
  canFastHead _ := true
  explicitlyOrdered _ := false
  optimizeAfterOffsetCache := id
  offsetsId := "bigframes_offsets_0"

/-- Concrete execution environment in non-strict mode with an explicitly
ordered plan and no fast-head support: the slice in which the forced
offset materialization raises. -/
def exExecEnvNonStrict : ExecEnv where
  strictlyOrdered := false
  optimize := id
  rowCountMeta _ := none
  canFastHead _ := false
  explicitlyOrdered _ := true
  optimizeAfterOffsetCache := id
  offsetsId := "bigframes_offsets_0"

/-- C1 witness: with a static row count of 3 and `n = 5`, `head` runs the
full ordered execution as-is; without a static count, in strict mode with
fast head available, it compiles the derived head plan, whose schema is
exactly the original single column `k`; and in non-strict mode with an
explicitly ordered plan lacking fast-head support it raises the
offset-caching `ValueError` instead of producing a plan. -/
theorem c1_head_dispatch_witness :
    headDispatch exExecEnvCounted exReadTable 5 =
        Except.ok (HeadAction.executeOrdered exReadTable)
    ∧ headDispatch exExecEnv exReadTable 5 =
        Except.ok
          (HeadAction.runHeadPlan false (generateHeadPlan "bigframes_offsets_0" exReadTable 5))
    ∧ headDispatch exExecEnvNonStrict exReadTable 5 =
        Except.error ("Caching with offsets only supported in strictly ordered mode.")
    ∧ Option.bind (generateHeadPlan "bigframes_offsets_0" exReadTable 5) schemaOf =
        some [SchemaItem.mk "k" Dtype.int64] := by
  refine ⟨?_, ?_, ?_, ?_⟩
  · exact (c1_head_dispatch exExecEnvCounted exReadTable 5).1 3 rfl (by decide)
  · exact (c1_head_dispatch exExecEnv exReadTable 5).2.2.2.1
      (fun c h => by cases h) (Or.inl rfl) rfl
  · exact (c1_head_dispatch exExecEnvNonStrict exReadTable 5).2.2.2.2.1
      (fun c h => by cases h) rfl rfl rfl
  · exact ((c1_head_dispatch exExecEnv exReadTable 5).2.2.2.2.2 exReadTable
      [SchemaItem.mk "k" Dtype.int64] rfl (by decide) (by decide)).2

/-- C1 counterexample: in a non-strict session with an explicitly ordered
plan whose optimized tree cannot support a cheap bounded ordered read —
a slice the claim covers and for which it asserts a derived-plan
execution — `head` raises the `ValueError` of the forced
`_cache_with_offsets` call instead of building and executing a derived
plan. -/
theorem c1_nonstrict_offset_cache_error_counterexample :
    headDispatch exExecEnvNonStrict exReadTable 5 =
      Except.error ("Caching with offsets only supported in strictly ordered mode.")
    ∧ isErr (headDispatch exExecEnvNonStrict exReadTable 5) = true := by
  exact ⟨rfl, rfl⟩
